import Mathlib

/-!
Verification of the vanadinite IPC channel subsystem against its
natural-language specification.

The development shallowly embeds the kernel's channel syscalls
(`request_channel`, `create_channel`, `create_message`, `send_message`,
`read_message`, `retire_message` from `kernel/vanadinite/src/syscall/channel.rs`),
the spin-lock primitive (`sync/mutex.rs`) and the device-tree property
parser (`fdt/src/node.rs`).  `BTreeMap` is embedded as an association list
with lookup, replace-insert, erase, and min/max key extraction; machine
integers are `Nat` (no arithmetic in the embedded code overflows on the
inputs considered); panics (`unwrap`, `unreachable`) are a distinguished
outcome constructor carrying the reason and the state at the panic point.
The memory manager and the shared `Arc<AtomicUsize>` message-id counter are
not part of the provided sources; the memory manager is modelled from the
spec's broker interface (§4.2) and the counters as a kernel-global list of
cells indexed by allocation order.
-/

namespace Vanadinite

/-! ## Association-list maps (embedding of `BTreeMap`) -/

/-- Embedding of `alloc::collections::BTreeMap` with `Nat` keys: an
association list.  Lookup takes the first hit, insert replaces any previous
binding, and the ordered-map iteration order is recovered through
`minKey?`/`maxKey?` (a `BTreeMap` iterates in ascending key order, so its
first entry is the minimal key and `last_key_value` the maximal one). -/
abbrev Mmap (α : Type) : Type := List (Nat × α)

namespace Mmap

/-- `BTreeMap::get`: first binding of the key, if any. -/
def find? {α : Type} : Mmap α → Nat → Option α
  | [], _ => none
  | (k', v) :: rest, k => if k' = k then some v else find? rest k

/-- Remove every binding of a key. -/
def erase {α : Type} : Mmap α → Nat → Mmap α
  | [], _ => []
  | (k', v) :: rest, k => if k' = k then erase rest k else (k', v) :: erase rest k

/-- `BTreeMap::insert`: bind the key, replacing any previous binding. -/
def insert {α : Type} (m : Mmap α) (k : Nat) (v : α) : Mmap α :=
  (k, v) :: erase m k

/-- The list of keys (with multiplicity; reachable maps bind each key once). -/
def keys {α : Type} (m : Mmap α) : List Nat :=
  m.map Prod.fst

/-- Least key of the map: the key of `iter().next()` on a `BTreeMap`. -/
def minKey? {α : Type} : Mmap α → Option Nat
  | [] => none
  | (k, _) :: rest =>
    match minKey? rest with
    | none => some k
    | some m => some (min k m)

/-- Greatest key of the map: the key of `last_key_value()` on a `BTreeMap`. -/
def maxKey? {α : Type} : Mmap α → Option Nat
  | [] => none
  | (k, _) :: rest =>
    match maxKey? rest with
    | none => some k
    | some m => some (max k m)

/-- First entry in ascending key order: `BTreeMap::iter().next()`. -/
def minEntry? {α : Type} (m : Mmap α) : Option (Nat × α) :=
  match minKey? m with
  | none => none
  | some k =>
    match find? m k with
    | some v => some (k, v)
    | none => none

end Mmap

/-! ## Spin mutex (`sync/mutex.rs`) -/

/-- `AtomicBool::compare_and_swap(current, new, _)`: if the stored value
equals `current` it is replaced by `new`; the return value is always the
*previous* stored value.  Result is `(returned value, new stored value)`. -/
def compareAndSwap (current new stored : Bool) : Bool × Bool :=
  if stored = current then (stored, new) else (stored, stored)

/-- `SpinMutex::try_lock`: `self.lock.compare_and_swap(false, true, Release)`
on the lock bit.  Result is `(returned value, lock bit afterwards)`. -/
def tryLock (lock : Bool) : Bool × Bool :=
  compareAndSwap false true lock

/-- `SpinMutex::unlock`: release-store `false` to the lock bit. -/
def unlockBit (_lock : Bool) : Bool :=
  false

/-! ## Device-tree property parsing (`fdt/src/node.rs`) -/

/-- The `FDT_PROP` structure-block token. -/
def FDT_PROP : Nat := 3

/-- Read a big-endian `u32` from byte memory at a byte offset
(`(**ptr).get()` on a `*const BigEndianU32`); out-of-range bytes read 0. -/
def readBE32 (mem : List Nat) (p : Nat) : Nat :=
  (mem.getD p 0) * 16777216 + (mem.getD (p + 1) 0) * 65536 +
    (mem.getD (p + 2) 0) * 256 + mem.getD (p + 3) 0

/-- `utils::round_up_to_next(x, n)`: round `x` up to the next multiple of
`n`. -/
def roundUpToNext (x n : Nat) : Nat :=
  ((x + n - 1) / n) * n

/-- `ptr.align_offset(4)` followed by `advance_ptr`: the pointer rounded up
to 4-byte alignment. -/
def alignUp4 (p : Nat) : Nat :=
  roundUpToNext p 4

/-- A parsed device-tree property: name bytes and value bytes
(`NodeProperty`). -/
structure NodeProperty where
  name : List Nat
  value : List Nat
deriving DecidableEq, Repr

/-- Why an embedded code path panicked. -/
inductive PanicReason
  /-- `parse_prop`: the token at the stream position is not `FDT_PROP`. -/
  | badPropToken
  /-- `parse_prop`: the name at the property's string offset does not decode
  (`to_str().unwrap()` fails). -/
  | badPropName
  /-- `send_message`: `dealloc_region` did not return a shared backed region
  (the `unreachable!()` arm). -/
  | detachNotShared
  /-- `send_message`: `TASKS.get(channel.other_task).unwrap()` failed. -/
  | noPeerTask
  /-- `send_message`: `other.channels.get_mut(..).unwrap()` failed. -/
  | noPeerChannel
  /-- The calling task is not in the task table. -/
  | noCurrentTask
deriving DecidableEq, Repr

/-- Result of `parse_prop`: a panic, or the property together with the
stream position after it. -/
inductive PropOutcome
  | panicked (r : PanicReason)
  | ok (prop : NodeProperty) (ptr : Nat)
deriving DecidableEq, Repr

/-- `parse_prop` from `fdt/src/node.rs`.  `strNames off` is the composite
`header.strings().cstr_at_offset(off).to_str()` — modelled from the spec
(the `FdtStrings` reader is not among the provided sources; the spec
describes the reader only as an interface): it yields the name bytes when
the C string at `off` decodes as UTF-8 and nothing otherwise, in which case
the source's `.unwrap()` panics. -/
def parseProp (mem : List Nat) (strNames : Nat → Option (List Nat)) (p : Nat) :
    PropOutcome :=
  if readBE32 mem p ≠ FDT_PROP then .panicked .badPropToken
  else
    let len := readBE32 mem (p + 4)
    let nameOffset := readBE32 mem (p + 8)
    let data := (List.range len).map (fun i => mem.getD (p + 12 + i) 0)
    let ptr := alignUp4 (p + 12 + len)
    match strNames nameOffset with
    | none => .panicked .badPropName
    | some name => .ok ⟨name, data⟩ ptr

/-! ## Kernel data model (`kernel/vanadinite/src/syscall/channel.rs`) -/

/-- A half-open virtual address range `Range<VirtualAddress>`. -/
structure VRange where
  start : Nat
  stop : Nat
deriving DecidableEq, Repr

/-- `librust::error::KError` (the variants the channel code produces). -/
inductive KError
  | InvalidArgument (n : Nat)
  | InvalidRecipient
deriving DecidableEq, Repr

/-- `TaskState`. -/
inductive TaskState
  | Running
  | Blocked
  | Dead
deriving DecidableEq, Repr

/-- `TaskState::is_dead`. -/
def TaskState.isDead : TaskState → Bool
  | .Dead => true
  | _ => false

/-- `librust::message::KernelNotification` (the variants the channel code
produces). -/
inductive KernelNotification
  | ChannelRequest (tid : Nat)
  | ChannelRequestDenied
  | ChannelOpened (cid : Nat)
deriving DecidableEq, Repr

/-- `librust::message::Message`, as far as the channel code distinguishes
it: the default (empty) message or a kernel notification converted with
`.into()`. -/
inductive Message
  | default
  | notif (n : KernelNotification)
deriving DecidableEq, Repr

/-- `librust::message::Sender`. -/
inductive Sender
  | kernel
  | task (tid : Nat)
deriving DecidableEq, Repr

/-- Modelled from the spec: one mapped region known to a task's memory
manager — its byte size and whether its physical backing is a shared
channel backing (`PhysicalRegion::Shared`), the only property
`dealloc_region`'s caller in `send_message` inspects. -/
structure RegionEntry where
  size : Nat
  shared : Bool
deriving DecidableEq, Repr

/-- Modelled from the spec: the shared-region broker (§4.2) a task's
`memory_manager` provides.  Regions are keyed by their start address;
fresh virtual addresses come from a bump pointer, which keeps every
allocated range disjoint from the live ones. -/
structure MemoryManager where
  regions : Mmap RegionEntry
  nextFree : Nat
deriving DecidableEq, Repr

/-- Modelled from the spec: `alloc_shared_region` — allocate `nPages`
zeroed user pages, record them, and return the virtual range. -/
def MemoryManager.allocSharedRegion (mm : MemoryManager) (nPages : Nat) :
    VRange × MemoryManager :=
  let size := nPages * 4096
  (⟨mm.nextFree, mm.nextFree + size⟩,
    { regions := mm.regions.insert mm.nextFree ⟨size, true⟩,
      nextFree := mm.nextFree + size })

/-- Modelled from the spec: `dealloc_region` — remove the mapping starting
at `start` and hand back what was mapped there (`send_message` matches on
it to extract the shared backing). -/
def MemoryManager.deallocRegion (mm : MemoryManager) (start : Nat) :
    Option RegionEntry × MemoryManager :=
  (mm.regions.find? start, { mm with regions := mm.regions.erase start })

/-- Modelled from the spec: `apply_shared_region` — install a detached
backing at a kernel-chosen virtual address of the receiving task and
return the new range. -/
def MemoryManager.applySharedRegion (mm : MemoryManager) (backing : RegionEntry) :
    VRange × MemoryManager :=
  (⟨mm.nextFree, mm.nextFree + backing.size⟩,
    { regions := mm.regions.insert mm.nextFree backing,
      nextFree := mm.nextFree + backing.size })

/-- `UserspaceChannel`: one task's half of a channel.  The shared
`Arc<AtomicUsize>` is embedded as an index (`message_id_counter`) into the
kernel-global list of counter cells, so that both endpoints reference the
same cell. -/
structure UserspaceChannel where
  other_task : Nat
  other_channel_id : Nat
  message_id_counter : Nat
  write_regions : Mmap VRange
  read_regions : Mmap (VRange × Nat)
deriving DecidableEq, Repr

/-- The IPC-relevant fields of a `Task` record. -/
structure Task where
  channels : Mmap UserspaceChannel
  message_queue : List (Sender × Message)
  incoming_channel_request : List Nat
  promiscuous : Bool
  state : TaskState
  memory_manager : MemoryManager
deriving DecidableEq, Repr

/-- The kernel state the channel syscalls touch: `CURRENT_TASK`, the task
table `TASKS`, and the pool of shared message-id counter cells (each cell
is one `Arc<AtomicUsize>`; a cell's index is its identity). -/
structure Kernel where
  currentTid : Nat
  tasks : Mmap Task
  counters : List Nat
deriving DecidableEq, Repr

/-- Replace a task record in the task table (writing back through a held
lock). -/
def Kernel.updateTask (k : Kernel) (tid : Nat) (t : Task) : Kernel :=
  { k with tasks := k.tasks.insert tid t }

/-- Outcome of a syscall: `SyscallResult::Ok`/`Err` with the kernel state
after the call, or a panic with the state at the panic point. -/
inductive Outcome (α : Type)
  | ok (a : α) (k : Kernel)
  | err (e : KError) (k : Kernel)
  | panicked (r : PanicReason) (k : Kernel)
deriving DecidableEq, Repr

/-- The kernel state an outcome carries. -/
def Outcome.state {α : Type} : Outcome α → Kernel
  | .ok _ k => k
  | .err _ k => k
  | .panicked _ k => k

/-- Whether the outcome is a panic. -/
def Outcome.isPanicked {α : Type} : Outcome α → Bool
  | .panicked _ _ => true
  | _ => false

/-- Whether the outcome is `Ok`. -/
def Outcome.isOk {α : Type} : Outcome α → Bool
  | .ok _ _ => true
  | _ => false

/-- The error of an `Err` outcome, if any. -/
def Outcome.errCode? {α : Type} : Outcome α → Option KError
  | .err e _ => some e
  | _ => none

/-- Whether the outcome is the `unreachable!()` panic of `send_message`'s
detach step. -/
def Outcome.isDetachPanicked {α : Type} : Outcome α → Bool
  | .panicked .detachNotShared _ => true
  | _ => false

/-- `BTreeSet::insert` on the `incoming_channel_request` set. -/
def insertSet (s : List Nat) (x : Nat) : List Nat :=
  if x ∈ s then s else x :: s

/-- `BTreeSet::remove` on the `incoming_channel_request` set: whether the
element was present, and the set without it. -/
def removeSet (s : List Nat) (x : Nat) : Bool × List Nat :=
  (x ∈ s, s.filter (fun y => y != x))

/-- `ChannelId` allocation: `last_key_value().map(|(id, _)| id + 1).unwrap_or(0)`. -/
def nextChannelId {α : Type} (m : Mmap α) : Nat :=
  match m.maxKey? with
  | some k => k + 1
  | none => 0

/-- `UserspaceChannel::next_message_id`: `fetch_add(1, AcqRel)` on the
shared counter cell — returns the pre-increment value and the updated
cell pool. -/
def nextMessageId (counters : List Nat) (c : Nat) : Nat × List Nat :=
  (counters.getD c 0, counters.set c (counters.getD c 0 + 1))

/-! ## The channel syscalls -/

/-- `request_channel(from, to)`.  The caller is the task at
`CURRENT_TASK`; its record is looked up in the task table (the syscall
layer passes it as `from: &mut Task`). -/
def requestChannel (k : Kernel) (toTid : Nat) : Outcome Message :=
  match k.tasks.find? k.currentTid with
  | none => .panicked .noCurrentTask k
  | some fromTask =>
    if k.currentTid = toTid then .err (.InvalidArgument 0) k
    else
      match k.tasks.find? toTid with
      | none => .err .InvalidRecipient k
      | some toTask =>
        if toTask.state.isDead then .err .InvalidRecipient k
        else if !toTask.promiscuous then
          .ok (Message.notif .ChannelRequestDenied) k
        else
          let toTask' := { toTask with
            incoming_channel_request :=
              insertSet toTask.incoming_channel_request k.currentTid,
            message_queue := toTask.message_queue ++
              [(Sender.kernel, Message.notif (.ChannelRequest k.currentTid))] }
          let fromTask' := { fromTask with state := TaskState.Blocked }
          .ok Message.default
            ((k.updateTask toTid toTask').updateTask k.currentTid fromTask')

/-- `create_channel(from, to)`. -/
def createChannel (k : Kernel) (toTid : Nat) : Outcome Nat :=
  match k.tasks.find? k.currentTid with
  | none => .panicked .noCurrentTask k
  | some fromTask =>
    if k.currentTid = toTid then .err (.InvalidArgument 0) k
    else
      match k.tasks.find? toTid with
      | none => .err .InvalidRecipient k
      | some toTask =>
        if toTask.state.isDead then .err .InvalidRecipient k
        else
          let counterId := k.counters.length
          let counters' := k.counters ++ [0]
          let fromCid := nextChannelId fromTask.channels
          let toCid := nextChannelId toTask.channels
          let fromChannel : UserspaceChannel :=
            { other_task := toTid, other_channel_id := toCid,
              message_id_counter := counterId,
              write_regions := [], read_regions := [] }
          let toChannel : UserspaceChannel :=
            { other_task := k.currentTid, other_channel_id := fromCid,
              message_id_counter := counterId,
              write_regions := [], read_regions := [] }
          let removed := removeSet fromTask.incoming_channel_request toTid
          let toTask1 :=
            if removed.1 then { toTask with state := TaskState.Running }
            else toTask
          let fromTask' := { fromTask with
            incoming_channel_request := removed.2,
            channels := fromTask.channels.insert fromCid fromChannel }
          let toTask2 := { toTask1 with
            channels := toTask1.channels.insert toCid toChannel,
            message_queue :=
              (Sender.kernel, Message.notif (.ChannelOpened toCid)) ::
                toTask1.message_queue }
          let k1 := (k.updateTask k.currentTid fromTask').updateTask toTid toTask2
          .ok fromCid { k1 with counters := counters' }

/-- `create_message(task, channel_id, size)`. -/
def createMessage (k : Kernel) (channel_id size : Nat) :
    Outcome (Nat × Nat × Nat) :=
  match k.tasks.find? k.currentTid with
  | none => .panicked .noCurrentTask k
  | some task =>
    match task.channels.find? channel_id with
    | none => .err (.InvalidArgument 0) k
    | some channel =>
      let nPages := roundUpToNext size 4096 / 4096
      let idPair := nextMessageId k.counters channel.message_id_counter
      let messageId := idPair.1
      let allocPair := task.memory_manager.allocSharedRegion nPages
      let region := allocPair.1
      let size' := nPages * 4096
      let channel' := { channel with
        write_regions := channel.write_regions.insert messageId region }
      let task' := { task with
        channels := task.channels.insert channel_id channel',
        memory_manager := allocPair.2 }
      .ok (messageId, region.start, size')
        { k.updateTask k.currentTid task' with counters := idPair.2 }

/-- `send_message(task, channel_id, message_id, len)`. -/
def sendMessage (k : Kernel) (channel_id message_id len : Nat) : Outcome Unit :=
  match k.tasks.find? k.currentTid with
  | none => .panicked .noCurrentTask k
  | some task =>
    match task.channels.find? channel_id with
    | none => .err (.InvalidArgument 0) k
    | some channel =>
      match channel.write_regions.find? message_id with
      | none => .err (.InvalidArgument 1) k
      | some range =>
        let channel1 := { channel with
          write_regions := channel.write_regions.erase message_id }
        let task1 := { task with
          channels := task.channels.insert channel_id channel1 }
        let k1 := k.updateTask k.currentTid task1
        if range.stop - range.start < len then .err (.InvalidArgument 2) k1
        else
          let deallocPair := task1.memory_manager.deallocRegion range.start
          let task2 := { task1 with memory_manager := deallocPair.2 }
          let k2 := k1.updateTask k.currentTid task2
          match deallocPair.1 with
          | none => .panicked .detachNotShared k2
          | some backing =>
            if !backing.shared then .panicked .detachNotShared k2
            else
              match k2.tasks.find? channel1.other_task with
              | none => .panicked .noPeerTask k2
              | some other =>
                let applyPair := other.memory_manager.applySharedRegion backing
                let region := applyPair.1
                let other1 := { other with memory_manager := applyPair.2 }
                match other1.channels.find? channel1.other_channel_id with
                | none =>
                  .panicked .noPeerChannel
                    (k2.updateTask channel1.other_task other1)
                | some otherChannel =>
                  let otherChannel' := { otherChannel with
                    read_regions :=
                      otherChannel.read_regions.insert message_id (region, len) }
                  let other2 := { other1 with
                    channels :=
                      other1.channels.insert channel1.other_channel_id
                        otherChannel' }
                  .ok () (k2.updateTask channel1.other_task other2)

/-- `read_message(task, channel_id)`. -/
def readMessage (k : Kernel) (channel_id : Nat) : Outcome (Nat × Nat × Nat) :=
  match k.tasks.find? k.currentTid with
  | none => .panicked .noCurrentTask k
  | some task =>
    match task.channels.find? channel_id with
    | none => .err (.InvalidArgument 0) k
    | some channel =>
      match channel.read_regions.minEntry? with
      | some (id, (region, len)) => .ok (id, region.start, len) k
      | none => .ok (0, 0, 0) k

/-- `retire_message(task, channel_id, message_id)`. -/
def retireMessage (k : Kernel) (channel_id message_id : Nat) : Outcome Unit :=
  match k.tasks.find? k.currentTid with
  | none => .panicked .noCurrentTask k
  | some task =>
    match task.channels.find? channel_id with
    | none => .err (.InvalidArgument 0) k
    | some channel =>
      match channel.read_regions.find? message_id with
      | none => .err (.InvalidArgument 1) k
      | some region =>
        let channel' := { channel with
          read_regions := channel.read_regions.erase message_id }
        let task1 := { task with
          channels := task.channels.insert channel_id channel' }
        let deallocPair := task1.memory_manager.deallocRegion region.1.start
        .ok ()
          (k.updateTask k.currentTid { task1 with memory_manager := deallocPair.2 })

/-! ## Operation traces -/

/-- One observable kernel event: a scheduler switch of `CURRENT_TASK` to a
task already in the table, or one of the six channel syscalls issued by the
current task. -/
inductive Op
  | switchTo (tid : Nat)
  | request (toTid : Nat)
  | create (toTid : Nat)
  | createMsg (cid size : Nat)
  | send (cid mid len : Nat)
  | read (cid : Nat)
  | retire (cid mid : Nat)
deriving DecidableEq, Repr

/-- The kernel state after one event (a panic keeps the state at the panic
point; nothing further is observed of a panicked kernel, so any property of
that state is a property of the last observable instant). -/
def step (k : Kernel) : Op → Kernel
  | .switchTo tid =>
    if (k.tasks.find? tid).isSome then { k with currentTid := tid } else k
  | .request toTid => (requestChannel k toTid).state
  | .create toTid => (createChannel k toTid).state
  | .createMsg cid size => (createMessage k cid size).state
  | .send cid mid len => (sendMessage k cid mid len).state
  | .read cid => (readMessage k cid).state
  | .retire cid mid => (retireMessage k cid mid).state

/-- The kernel state after a sequence of events. -/
def run (k : Kernel) : List Op → Kernel
  | [] => k
  | op :: ops => run (step k op) ops

/-- The message ids handed out by one event, tagged with the shared counter
cell they were drawn from: a successful `create_message` hands out exactly
one id. -/
def opLog (k : Kernel) : Op → List (Nat × Nat)
  | .createMsg cid size =>
    match k.tasks.find? k.currentTid with
    | none => []
    | some task =>
      match task.channels.find? cid with
      | none => []
      | some channel =>
        match createMessage k cid size with
        | .ok (mid, _, _) _ => [(channel.message_id_counter, mid)]
        | _ => []
  | _ => []

/-- All message ids handed out along a trace, in order, tagged with their
counter cell. -/
def runLog (k : Kernel) : List Op → List (Nat × Nat)
  | [] => []
  | op :: ops => opLog k op ++ runLog (step k op) ops

/-- The ids a given counter cell handed out along a log, in order. -/
def idsFor (c : Nat) (l : List (Nat × Nat)) : List Nat :=
  (l.filter (fun p => p.1 == c)).map Prod.snd

/-- The channel at a (task id, channel id) slot. -/
def chanAt (k : Kernel) (t c : Nat) : Option UserspaceChannel :=
  match k.tasks.find? t with
  | none => none
  | some task => task.channels.find? c

/-- The value of a counter cell (0 for an unallocated index). -/
def counterVal (k : Kernel) (c : Nat) : Nat :=
  k.counters.getD c 0

/-- Every message id a channel currently holds, in either direction. -/
def chanKeys (ch : UserspaceChannel) : List Nat :=
  ch.write_regions.keys ++ ch.read_regions.keys

/-- The kernel invariant tying channels, their shared counter cells and
their pending message ids together.  `ctrBound`/`idBound` say ids are drawn
from an allocated cell and are strictly below its next value; `noSelf`,
`coherent` and `pairUnique` say each counter cell is shared by exactly one
cross-referenced endpoint pair of two distinct tasks; `intraDisj` and
`interDisj` say a message id lives in at most one of the pair's four maps. -/
structure Inv (k : Kernel) : Prop where
  ctrBound : ∀ t c ch, chanAt k t c = some ch →
    ch.message_id_counter < k.counters.length
  idBound : ∀ t c ch m, chanAt k t c = some ch → m ∈ chanKeys ch →
    m < counterVal k ch.message_id_counter
  noSelf : ∀ t c ch, chanAt k t c = some ch → ch.other_task ≠ t
  coherent : ∀ t c ch, chanAt k t c = some ch →
    ∃ ch', chanAt k ch.other_task ch.other_channel_id = some ch' ∧
      ch'.message_id_counter = ch.message_id_counter ∧
      ch'.other_task = t ∧ ch'.other_channel_id = c
  pairUnique : ∀ t1 c1 ch1 t2 c2 ch2,
    chanAt k t1 c1 = some ch1 → chanAt k t2 c2 = some ch2 →
    ch1.message_id_counter = ch2.message_id_counter →
    ¬(t1 = t2 ∧ c1 = c2) → ch1.other_task = t2 ∧ ch1.other_channel_id = c2
  intraDisj : ∀ t c ch m, chanAt k t c = some ch →
    ¬(m ∈ ch.write_regions.keys ∧ m ∈ ch.read_regions.keys)
  interDisj : ∀ t1 c1 ch1 t2 c2 ch2 m,
    chanAt k t1 c1 = some ch1 → chanAt k t2 c2 = some ch2 →
    ch1.message_id_counter = ch2.message_id_counter →
    ¬(t1 = t2 ∧ c1 = c2) → ¬(m ∈ chanKeys ch1 ∧ m ∈ chanKeys ch2)

/-- A task record as produced by task creation, before any channel
activity: no channels, empty queue, no pending requests, promiscuous,
running, and an empty address-space region map whose bump pointer starts
at `base`. -/
def freshTask (base : Nat) : Task :=
  { channels := [], message_queue := [], incoming_channel_request := [],
    promiscuous := true, state := TaskState.Running,
    memory_manager := { regions := [], nextFree := base } }

/-- A kernel whose tasks all are fresh (no channel has ever been created)
and whose counter pool is empty. -/
def initKernel (tids : List Nat) (cur : Nat) : Kernel :=
  { currentTid := cur,
    tasks := tids.map (fun t => (t, freshTask (4096 * (t + 1)))),
    counters := [] }

/-! ## Concrete scenario states used by individual claims -/

/-- Two fresh promiscuous tasks `0` and `1`, task `0` running. -/
def twoTasks : Kernel := initKernel [0, 1] 0

/-- An endpoint of task 0 whose peer coordinates name task 1, endpoint 0,
with one unsent outbound message `0` over the page `[4096, 8192)`. -/
def chStaged : UserspaceChannel :=
  { other_task := 1, other_channel_id := 0, message_id_counter := 0,
    write_regions := [(0, ⟨4096, 8192⟩)], read_regions := [] }

/-- Task 0's record holding `chStaged`, its page mapped and shared. -/
def tskStaged : Task :=
  { channels := [(0, chStaged)], message_queue := [],
    incoming_channel_request := [], promiscuous := true,
    state := TaskState.Running,
    memory_manager := { regions := [(4096, ⟨4096, true⟩)], nextFree := 8192 } }

/-- Claim C1's state: the sender holds a staged message but its peer task
has disappeared from the task table entirely. -/
def kC1 : Kernel :=
  { currentTid := 0, tasks := [(0, tskStaged)], counters := [1] }

/-- Claim C2's state: sender and (live) peer both present, one staged
4096-byte message. -/
def kC2 : Kernel :=
  { currentTid := 0, tasks := [(0, tskStaged), (1, freshTask 8192)],
    counters := [1] }

/-- A task that has died: `Dead`, its channels torn down. -/
def deadTask : Task :=
  { channels := [], message_queue := [], incoming_channel_request := [],
    promiscuous := true, state := TaskState.Dead,
    memory_manager := { regions := [], nextFree := 8192 } }

/-- Claim C3's state: the sender's peer is still in the table but `Dead`
with all endpoints torn down. -/
def kC3 : Kernel :=
  { currentTid := 0, tasks := [(0, tskStaged), (1, deadTask)], counters := [1] }

/-- A task that refuses unsolicited channel requests. -/
def shyTask : Task :=
  { channels := [], message_queue := [], incoming_channel_request := [],
    promiscuous := false, state := TaskState.Running,
    memory_manager := { regions := [], nextFree := 8192 } }

/-- Claim C5's witness state: target task 1 is alive but not promiscuous. -/
def kC5 : Kernel :=
  { currentTid := 0, tasks := [(0, freshTask 4096), (1, shyTask)],
    counters := [] }

/-- An endpoint with two pending inbound messages, ids 5 and 2. -/
def chInbox : UserspaceChannel :=
  { other_task := 1, other_channel_id := 0, message_id_counter := 0,
    write_regions := [],
    read_regions := [(5, (⟨12288, 16384⟩, 11)), (2, (⟨9000, 13096⟩, 7))] }

/-- Claim C8's witness state: task 0 holds `chInbox`. -/
def kC8 : Kernel :=
  { currentTid := 0,
    tasks := [(0, { freshTask 4096 with channels := [(0, chInbox)] })],
    counters := [6] }

/-- Claim C10's trace, first step: task 0 opens a channel to task 1. -/
def kC10a : Kernel := (createChannel twoTasks 1).state

/-- Claim C10's trace, second step: task 0 creates message 0 (100 bytes
requested, one page granted). -/
def kC10b : Kernel := (createMessage kC10a 0 100).state

/-- Claim C10's trace, third step: task 0 sends message 0 with declared
length 5, then the scheduler switches to task 1. -/
def kC10c : Kernel := { (sendMessage kC10b 0 0 5).state with currentTid := 1 }

/-- Claim C10's comparison state: task 1's view before the send, when its
inbox is still empty. -/
def kC10empty : Kernel := { kC10a with currentTid := 1 }

/-! ## Map lemmas -/

namespace Mmap

theorem find?_erase {α : Type} (m : Mmap α) (k x : Nat) :
    find? (erase m k) x = if k = x then none else find? m x := by
  induction m with
  | nil => simp [erase, find?]
  | cons p rest ih =>
    obtain ⟨k', v⟩ := p
    by_cases hp : k' = k
    · subst hp
      by_cases hkx : k' = x
      · subst hkx; simpa [erase, find?] using ih
      · simpa [erase, find?, hkx] using ih
    · by_cases hx : k' = x
      · subst hx
        have hk : ¬k = k' := fun hh => hp hh.symm
        simp [erase, find?, hp, hk]
      · simpa [erase, find?, hp, hx] using ih

theorem find?_insert {α : Type} (m : Mmap α) (k : Nat) (v : α) (x : Nat) :
    find? (insert m k v) x = if k = x then some v else find? m x := by
  by_cases h : k = x
  · simp [insert, find?, h]
  · simp [insert, find?, h, find?_erase]

theorem keys_cons {α : Type} (p : Nat × α) (rest : Mmap α) :
    keys (p :: rest) = p.1 :: keys rest :=
  rfl

theorem mem_keys_iff_find? {α : Type} (m : Mmap α) (x : Nat) :
    x ∈ keys m ↔ (find? m x).isSome := by
  induction m with
  | nil => simp [keys, find?]
  | cons p rest ih =>
    rw [keys_cons, List.mem_cons]
    by_cases hx : p.1 = x
    · simp [find?, hx]
    · rw [find?, if_neg hx, ← ih]
      constructor
      · rintro (h | h)
        · exact absurd h.symm hx
        · exact h
      · exact Or.inr

theorem mem_keys_erase {α : Type} (m : Mmap α) (k x : Nat) :
    x ∈ keys (erase m k) ↔ x ∈ keys m ∧ x ≠ k := by
  rw [mem_keys_iff_find?, mem_keys_iff_find?, find?_erase]
  by_cases h : k = x
  · subst h; simp
  · rw [if_neg h]
    constructor
    · exact fun hs => ⟨hs, fun hh => h hh.symm⟩
    · exact fun hs => hs.1

theorem mem_keys_insert {α : Type} (m : Mmap α) (k : Nat) (v : α) (x : Nat) :
    x ∈ keys (insert m k v) ↔ x = k ∨ (x ∈ keys m ∧ x ≠ k) := by
  rw [mem_keys_iff_find?, find?_insert]
  by_cases h : k = x
  · simp [h.symm]
  · rw [if_neg h, ← mem_keys_iff_find?]
    constructor
    · exact fun hs => Or.inr ⟨hs, fun hh => h hh.symm⟩
    · rintro (hh | hs)
      · exact absurd hh.symm h
      · exact hs.1

theorem maxKey?_eq_none_iff {α : Type} (m : Mmap α) :
    maxKey? m = none ↔ m = [] := by
  cases m with
  | nil => simp [maxKey?]
  | cons p rest =>
    simp only [maxKey?]
    cases maxKey? rest <;> simp

theorem le_of_mem_keys_maxKey? {α : Type} (m : Mmap α) (x b : Nat)
    (hb : maxKey? m = some b) (hx : x ∈ keys m) : x ≤ b := by
  induction m generalizing b with
  | nil => simp [keys] at hx
  | cons p rest ih =>
    rw [keys_cons, List.mem_cons] at hx
    simp only [maxKey?] at hb
    cases hrest : maxKey? rest with
    | none =>
      rw [hrest] at hb
      cases hb
      rw [maxKey?_eq_none_iff] at hrest
      subst hrest
      rcases hx with hx | hx
      · omega
      · simp [keys] at hx
    | some mrest =>
      rw [hrest] at hb
      cases hb
      rcases hx with hx | hx
      · subst hx; exact le_max_left _ _
      · exact le_trans (ih mrest hrest hx) (le_max_right _ _)

theorem minKey?_eq_none_iff {α : Type} (m : Mmap α) :
    minKey? m = none ↔ m = [] := by
  cases m with
  | nil => simp [minKey?]
  | cons p rest =>
    simp only [minKey?]
    cases minKey? rest <;> simp

theorem minKey?_mem_keys {α : Type} (m : Mmap α) (b : Nat)
    (hb : minKey? m = some b) : b ∈ keys m := by
  induction m generalizing b with
  | nil => simp [minKey?] at hb
  | cons p rest ih =>
    simp only [minKey?] at hb
    cases hrest : minKey? rest with
    | none =>
      rw [hrest] at hb; cases hb; simp [keys]
    | some mrest =>
      rw [hrest] at hb
      cases hb
      rcases min_cases p.1 mrest with ⟨heq, _⟩ | ⟨heq, _⟩
      · rw [heq, keys_cons]; exact List.mem_cons_self _ _
      · rw [heq, keys_cons, List.mem_cons]
        exact Or.inr (ih mrest hrest)

theorem minKey?_le_of_mem_keys {α : Type} (m : Mmap α) (x b : Nat)
    (hb : minKey? m = some b) (hx : x ∈ keys m) : b ≤ x := by
  induction m generalizing b with
  | nil => simp [keys] at hx
  | cons p rest ih =>
    rw [keys_cons, List.mem_cons] at hx
    simp only [minKey?] at hb
    cases hrest : minKey? rest with
    | none =>
      rw [hrest] at hb
      cases hb
      rcases hx with hx | hx
      · omega
      · rw [minKey?_eq_none_iff] at hrest
        subst hrest
        simp [keys] at hx
    | some mrest =>
      rw [hrest] at hb
      cases hb
      rcases hx with hx | hx
      · subst hx; exact min_le_left _ _
      · exact le_trans (min_le_right _ _) (ih mrest hrest hx)

end Mmap

/-! ## Helper lemmas -/

theorem TaskState.isDead_iff (s : TaskState) : s.isDead = true ↔ s = TaskState.Dead := by
  cases s <;> simp [TaskState.isDead]

theorem TaskState.isDead_eq_false {s : TaskState} (h : s ≠ TaskState.Dead) :
    s.isDead = false := by
  cases s <;> simp_all [TaskState.isDead]

/-! ## Claim C4 -/

/-- C4: the spec claims `SpinMutex::try_lock` returns `true` exactly when
the lock was previously unlocked and was thereby acquired.  The code
instead returns `compare_and_swap`'s result, which is the *previous* value
of the lock bit: starting unlocked it acquires the lock (the bit becomes
set) yet returns `false`, and starting locked it fails to acquire yet
returns `true`.  This theorem evaluates the embedded code on both states,
exhibiting the inversion at the failing input `lock = false`. -/
theorem C4_tryLock_returns_previous_value :
    (∀ b, tryLock b = (b, true)) ∧
    tryLock false = (false, true) ∧ tryLock true = (true, true) := by
  decide

/-! ## Claim C10 -/

/-- C10: the shared counter starts at 0 and `next_message_id` returns the
pre-increment value, so the first message created on a fresh channel has
`MessageId` 0; in the reached state the receiver has a pending inbound
message and `read_message` returns `(0, 8192, 5)`, whose first component
coincides with the id component of the empty-inbox sentinel `(0, 0, 0)`
(returned on the same endpoint before the send) — only the address and
length components differ. -/
theorem C10_first_message_id_is_sentinel_id :
    createMessage kC10a 0 100 = Outcome.ok (0, 4096, 4096) kC10b ∧
    readMessage kC10c 0 = Outcome.ok (0, 8192, 5) kC10c ∧
    (((kC10c.tasks.find? 1).bind (fun t => t.channels.find? 0)).map
      (fun c => c.read_regions)) = some [(0, (⟨8192, 12288⟩, 5))] ∧
    readMessage kC10empty 0 = Outcome.ok (0, 0, 0) kC10empty := by
  decide

/-! ## Claim C1 -/

/-- C1 counterexample: in `kC1` the send's channel and message id resolve
and the length check passes, the peer task is absent from the task table —
yet `send_message` does not return `Err(InvalidRecipient)`: it panics (the
`TASKS.get(channel.other_task).unwrap()`). -/
theorem C1_counterexample :
    chanAt kC1 0 0 = some chStaged ∧
    chStaged.write_regions.find? 0 = some ⟨4096, 8192⟩ ∧
    chStaged.other_task = 1 ∧
    kC1.tasks.find? 1 = none ∧
    (sendMessage kC1 0 0 5).isPanicked = true ∧
    (sendMessage kC1 0 0 5).errCode? ≠ some KError.InvalidRecipient := by
  decide

/-! ## Claim C2 -/

/-- C2 counterexample: in `kC2` task 0 stages a 4096-byte region and sends
with declared length 8192.  The call returns `Err(InvalidArgument(2))` and
the entry is gone from the outbound map, but the region is *not*
deallocated: its mapping is still present in the sender's memory manager
(the code returns before `dealloc_region`). -/
theorem C2_counterexample :
    (sendMessage kC2 0 0 8192).errCode? = some (KError.InvalidArgument 2) ∧
    (((sendMessage kC2 0 0 8192).state.tasks.find? 0).bind
      (fun t => t.channels.find? 0)).map (fun c => c.write_regions.find? 0) =
        some none ∧
    ((sendMessage kC2 0 0 8192).state.tasks.find? 0).map
      (fun t => t.memory_manager.regions.find? 4096) =
        some (some ⟨4096, true⟩) := by
  decide

/-! ## Claim C3 -/

/-- C3 counterexample: in `kC3` the peer (task 1) is Dead with its
endpoints torn down, yet the surviving task 0's `create_message` and
`read_message` on the endpoint referencing it succeed — neither returns
`Err(InvalidRecipient)`. -/
theorem C3_counterexample :
    (kC3.tasks.find? 1).map Task.state = some TaskState.Dead ∧
    chanAt kC3 0 0 = some chStaged ∧
    chStaged.other_task = 1 ∧
    (createMessage kC3 0 16).isOk = true ∧
    (readMessage kC3 0).isOk = true ∧
    (createMessage kC3 0 16).errCode? ≠ some KError.InvalidRecipient := by
  decide

/-! ## Claim C9 -/

/-- A strings table on which every name lookup fails to decode. -/
def noNames : Nat → Option (List Nat) :=
  fun _ => none

/-- C9 counterexample: a stream whose token *is* `FDT_PROP` on which
`parse_prop` nevertheless panics, because the property name does not
decode (`to_str().unwrap()`), refuting "panics exactly when the token is
not FDT_PROP". -/
theorem C9_counterexample :
    readBE32 [0, 0, 0, 3] 0 = FDT_PROP ∧
    parseProp [0, 0, 0, 3] noNames 0 = PropOutcome.panicked .badPropName := by
  decide

/-- C2 (amended): when the resolved outbound range is shorter than the
declared length, `send_message` returns `Err(InvalidArgument(2))` with the
entry removed from the sender's outbound map — but the region is *neither
deallocated nor restored*: the sender's memory manager is untouched and
everything else is unchanged. -/
theorem C2_undersized_send (k : Kernel) (cid mid len : Nat)
    (task : Task) (channel : UserspaceChannel) (range : VRange)
    (h1 : k.tasks.find? k.currentTid = some task)
    (h2 : task.channels.find? cid = some channel)
    (h3 : channel.write_regions.find? mid = some range)
    (h4 : range.stop - range.start < len) :
    ∃ k', sendMessage k cid mid len = .err (.InvalidArgument 2) k' ∧
      ∃ task', k'.tasks.find? k.currentTid = some task' ∧
        task'.memory_manager = task.memory_manager ∧
        task'.channels.find? cid =
          some { channel with write_regions := channel.write_regions.erase mid } ∧
        (∀ c, c ≠ cid → task'.channels.find? c = task.channels.find? c) ∧
        (∀ t, t ≠ k.currentTid → k'.tasks.find? t = k.tasks.find? t) := by
  have heq : sendMessage k cid mid len =
      .err (.InvalidArgument 2)
        (k.updateTask k.currentTid
          { task with
            channels :=
              task.channels.insert cid
                { channel with
                  write_regions := channel.write_regions.erase mid } }) := by
    simp only [sendMessage, h1, h2, h3, if_pos h4]
  refine ⟨_, heq,
    { task with
      channels :=
        task.channels.insert cid
          { channel with
            write_regions := channel.write_regions.erase mid } },
    ?_, rfl, ?_, ?_, ?_⟩
  · simp [Kernel.updateTask, Mmap.find?_insert]
  · simp [Mmap.find?_insert]
  · intro c hc
    have hc' : cid ≠ c := fun hh => hc hh.symm
    simp [Mmap.find?_insert, hc']
  · intro t ht
    have ht' : k.currentTid ≠ t := fun hh => ht hh.symm
    simp [Kernel.updateTask, Mmap.find?_insert, ht']

/-- C2 witness: the amended behavior at the concrete undersized-send state
`kC2`. -/
theorem C2_undersized_send_witness :
    ∃ k', sendMessage kC2 0 0 8192 = .err (.InvalidArgument 2) k' ∧
      ∃ task', k'.tasks.find? kC2.currentTid = some task' ∧
        task'.memory_manager = tskStaged.memory_manager ∧
        task'.channels.find? 0 =
          some { chStaged with write_regions := chStaged.write_regions.erase 0 } ∧
        (∀ c, c ≠ 0 → task'.channels.find? c = tskStaged.channels.find? c) ∧
        (∀ t, t ≠ kC2.currentTid → k'.tasks.find? t = kC2.tasks.find? t) :=
  C2_undersized_send kC2 0 0 8192 tskStaged chStaged ⟨4096, 8192⟩ rfl rfl rfl
    (by decide)

/-- C1 (amended): past the length check, `send_message` never returns
`Err(InvalidRecipient)` and never deallocates the detached backing.  If the
peer task is absent from the task table the kernel panics on
`TASKS.get(..).unwrap()`; if the peer task is present but its endpoint is
absent the kernel panics on `channels.get_mut(..).unwrap()`; and the peer's
`Dead` state is never consulted — whenever the peer task and endpoint are
present, the message is installed in the peer's inbound map exactly as on
the live path. -/
theorem C1_send_peer_missing (k : Kernel) (cid mid len : Nat)
    (task : Task) (channel : UserspaceChannel) (range : VRange)
    (backing : RegionEntry)
    (h1 : k.tasks.find? k.currentTid = some task)
    (h2 : task.channels.find? cid = some channel)
    (h3 : channel.write_regions.find? mid = some range)
    (h4 : ¬(range.stop - range.start < len))
    (h5 : task.memory_manager.regions.find? range.start = some backing)
    (h6 : backing.shared = true) :
    (k.tasks.find? channel.other_task = none →
      ∃ k', sendMessage k cid mid len = .panicked .noPeerTask k') ∧
    (∀ other, channel.other_task ≠ k.currentTid →
      k.tasks.find? channel.other_task = some other →
      other.channels.find? channel.other_channel_id = none →
      ∃ k', sendMessage k cid mid len = .panicked .noPeerChannel k') ∧
    (∀ other otherChannel, channel.other_task ≠ k.currentTid →
      k.tasks.find? channel.other_task = some other →
      other.channels.find? channel.other_channel_id = some otherChannel →
      ∃ k' otherChannel',
        sendMessage k cid mid len = .ok () k' ∧
        chanAt k' channel.other_task channel.other_channel_id =
          some otherChannel' ∧
        otherChannel'.read_regions.find? mid =
          some (⟨other.memory_manager.nextFree,
                 other.memory_manager.nextFree + backing.size⟩, len)) := by
  refine ⟨?_, ?_, ?_⟩
  · intro hnone
    have hne : ¬(k.currentTid = channel.other_task) := by
      intro hh
      rw [← hh, h1] at hnone
      cases hnone
    refine ⟨(sendMessage k cid mid len).state, ?_⟩
    simp only [sendMessage, h1, h2, h3, if_neg h4, MemoryManager.deallocRegion,
      h5, h6, Bool.not_true, Bool.false_eq_true, if_false, Kernel.updateTask,
      Mmap.find?_insert, if_neg hne, hnone, Outcome.state]
  · intro other hne ho hoc
    have hne' : ¬(k.currentTid = channel.other_task) := fun hh => hne hh.symm
    refine ⟨(sendMessage k cid mid len).state, ?_⟩
    simp only [sendMessage, h1, h2, h3, if_neg h4, MemoryManager.deallocRegion,
      h5, h6, Bool.not_true, Bool.false_eq_true, if_false, Kernel.updateTask,
      Mmap.find?_insert, if_neg hne', ho, MemoryManager.applySharedRegion, hoc,
      Outcome.state]
  · intro other otherChannel hne ho hoc
    have hne' : ¬(k.currentTid = channel.other_task) := fun hh => hne hh.symm
    refine ⟨(sendMessage k cid mid len).state,
      { otherChannel with
        read_regions :=
          otherChannel.read_regions.insert mid
            (⟨other.memory_manager.nextFree,
              other.memory_manager.nextFree + backing.size⟩, len) },
      ?_, ?_, ?_⟩
    · simp only [sendMessage, h1, h2, h3, if_neg h4, MemoryManager.deallocRegion,
        h5, h6, Bool.not_true, Bool.false_eq_true, if_false, Kernel.updateTask,
        Mmap.find?_insert, if_neg hne', ho, MemoryManager.applySharedRegion, hoc,
        Outcome.state]
    · simp only [sendMessage, h1, h2, h3, if_neg h4, MemoryManager.deallocRegion,
        h5, h6, Bool.not_true, Bool.false_eq_true, if_false, Kernel.updateTask,
        Mmap.find?_insert, if_neg hne', ho, MemoryManager.applySharedRegion, hoc,
        Outcome.state, chanAt]
      simp [Mmap.find?_insert]
    · simp [Mmap.find?_insert]

/-- C1 witness: the amended behavior at the concrete state `kC1`, whose
peer task 1 is absent — the call panics with `noPeerTask`. -/
theorem C1_send_peer_missing_witness :
    ∃ k', sendMessage kC1 0 0 5 = .panicked .noPeerTask k' :=
  (C1_send_peer_missing kC1 0 0 5 tskStaged chStaged ⟨4096, 8192⟩
    ⟨4096, true⟩ rfl rfl rfl (by decide) rfl rfl).1 rfl

/-- Every error `create_message` can return is an `InvalidArgument`. -/
theorem createMessage_err_only_invalid_argument (k : Kernel) (cid size : Nat) :
    (createMessage k cid size).errCode? = none ∨
      ∃ n, (createMessage k cid size).errCode? = some (KError.InvalidArgument n) := by
  unfold createMessage
  repeat' split
  all_goals simp [Outcome.errCode?]

/-- Every error `send_message` can return is an `InvalidArgument`. -/
theorem sendMessage_err_only_invalid_argument (k : Kernel) (cid mid len : Nat) :
    (sendMessage k cid mid len).errCode? = none ∨
      ∃ n, (sendMessage k cid mid len).errCode? = some (KError.InvalidArgument n) := by
  cases h1 : k.tasks.find? k.currentTid with
  | none => simp [sendMessage, h1, Outcome.errCode?]
  | some task =>
    cases h2 : task.channels.find? cid with
    | none => simp [sendMessage, h1, h2, Outcome.errCode?]
    | some channel =>
      cases h3 : channel.write_regions.find? mid with
      | none => simp [sendMessage, h1, h2, h3, Outcome.errCode?]
      | some range =>
        by_cases h4 : range.stop - range.start < len
        · refine Or.inr ⟨2, ?_⟩
          simp [sendMessage, h1, h2, h3, if_pos h4, Outcome.errCode?]
        · refine Or.inl ?_
          cases h5 : task.memory_manager.regions.find? range.start with
          | none =>
            simp [sendMessage, h1, h2, h3, if_neg h4,
              MemoryManager.deallocRegion, h5, Outcome.errCode?]
          | some backing =>
            by_cases h6 : backing.shared
            · simp only [sendMessage, h1, h2, h3, if_neg h4,
                MemoryManager.deallocRegion, h5, h6, Bool.not_true,
                Bool.false_eq_true, if_false, Kernel.updateTask,
                Mmap.find?_insert, MemoryManager.applySharedRegion]
              by_cases h7 : k.currentTid = channel.other_task
              · simp only [if_pos h7]
                by_cases h8 : cid = channel.other_channel_id
                · simp [Mmap.find?_insert, h8, Outcome.errCode?]
                · simp only [Mmap.find?_insert, if_neg h8]
                  cases h9 : task.channels.find? channel.other_channel_id with
                  | none => simp [h9, Outcome.errCode?]
                  | some oc => simp [h9, Outcome.errCode?]
              · simp only [if_neg h7]
                cases h9 : k.tasks.find? channel.other_task with
                | none => simp [h9, Outcome.errCode?]
                | some other =>
                  cases h10 : other.channels.find? channel.other_channel_id with
                  | none => simp [h9, h10, Outcome.errCode?]
                  | some oc => simp [h9, h10, Outcome.errCode?]
            · have h6' : backing.shared = false := by
                cases hb : backing.shared
                · rfl
                · exact absurd hb h6
              simp [sendMessage, h1, h2, h3, if_neg h4,
                MemoryManager.deallocRegion, h5, h6', Outcome.errCode?]

/-- Every error `read_message` can return is an `InvalidArgument`. -/
theorem readMessage_err_only_invalid_argument (k : Kernel) (cid : Nat) :
    (readMessage k cid).errCode? = none ∨
      ∃ n, (readMessage k cid).errCode? = some (KError.InvalidArgument n) := by
  unfold readMessage
  repeat' split
  all_goals simp [Outcome.errCode?]

/-- Every error `retire_message` can return is an `InvalidArgument`. -/
theorem retireMessage_err_only_invalid_argument (k : Kernel) (cid mid : Nat) :
    (retireMessage k cid mid).errCode? = none ∨
      ∃ n, (retireMessage k cid mid).errCode? = some (KError.InvalidArgument n) := by
  unfold retireMessage
  repeat' split
  all_goals simp [Outcome.errCode?]

/-- C3 (amended): none of the four message operations ever returns
`Err(InvalidRecipient)` — every error they produce is an
`InvalidArgument(n)`.  `create_message`, `read_message` and
`retire_message` consult only the caller's local state and can still
succeed after the peer dies (see the counterexample); `send_message`
panics, rather than failing with `InvalidRecipient`, when the peer task or
its endpoint is gone. -/
theorem C3_dead_peer_ops_never_invalid_recipient (k : Kernel)
    (cid size mid len : Nat) :
    ((createMessage k cid size).errCode? = none ∨
      ∃ n, (createMessage k cid size).errCode? = some (KError.InvalidArgument n)) ∧
    ((sendMessage k cid mid len).errCode? = none ∨
      ∃ n, (sendMessage k cid mid len).errCode? = some (KError.InvalidArgument n)) ∧
    ((readMessage k cid).errCode? = none ∨
      ∃ n, (readMessage k cid).errCode? = some (KError.InvalidArgument n)) ∧
    ((retireMessage k cid mid).errCode? = none ∨
      ∃ n, (retireMessage k cid mid).errCode? = some (KError.InvalidArgument n)) :=
  ⟨createMessage_err_only_invalid_argument k cid size,
   sendMessage_err_only_invalid_argument k cid mid len,
   readMessage_err_only_invalid_argument k cid,
   retireMessage_err_only_invalid_argument k cid mid⟩

/-- A staged sender state like `kC1`/`kC2` whose outbound range has no
mapping in the memory manager, so the detach step cannot produce a shared
backing. -/
def kDetach : Kernel :=
  { currentTid := 0,
    tasks := [(0, { tskStaged with
      memory_manager := { regions := [], nextFree := 8192 } })],
    counters := [1] }

/-- C9 (amended): `parse_prop` panics when the token at the stream position
is not `FDT_PROP`, and *additionally* when the property name at the string
offset fails to decode (`to_str().unwrap()`); with the token equal to
`FDT_PROP` and a decodable name it returns the property without panicking.
`send_message`'s detach step panics exactly when deallocating the outbound
range does not yield a shared backed region; when it does yield one, the
`detachNotShared` branch is unreachable — the call ends in success or in
one of the two peer-lookup panics. -/
theorem C9_panic_conditions :
    (∀ mem str p, readBE32 mem p ≠ FDT_PROP →
      parseProp mem str p = .panicked .badPropToken) ∧
    (∀ mem str p, readBE32 mem p = FDT_PROP →
      str (readBE32 mem (p + 8)) = none →
      parseProp mem str p = .panicked .badPropName) ∧
    (∀ mem str p name, readBE32 mem p = FDT_PROP →
      str (readBE32 mem (p + 8)) = some name →
      parseProp mem str p =
        .ok ⟨name, (List.range (readBE32 mem (p + 4))).map
            (fun i => mem.getD (p + 12 + i) 0)⟩
          (alignUp4 (p + 12 + readBE32 mem (p + 4)))) ∧
    (∀ k cid mid len task channel range,
      k.tasks.find? k.currentTid = some task →
      task.channels.find? cid = some channel →
      channel.write_regions.find? mid = some range →
      ¬(range.stop - range.start < len) →
      task.memory_manager.regions.find? range.start = none →
      ∃ k', sendMessage k cid mid len = .panicked .detachNotShared k') ∧
    (∀ k cid mid len task channel range backing,
      k.tasks.find? k.currentTid = some task →
      task.channels.find? cid = some channel →
      channel.write_regions.find? mid = some range →
      ¬(range.stop - range.start < len) →
      task.memory_manager.regions.find? range.start = some backing →
      backing.shared = false →
      ∃ k', sendMessage k cid mid len = .panicked .detachNotShared k') ∧
    (∀ k cid mid len task channel range backing,
      k.tasks.find? k.currentTid = some task →
      task.channels.find? cid = some channel →
      channel.write_regions.find? mid = some range →
      ¬(range.stop - range.start < len) →
      task.memory_manager.regions.find? range.start = some backing →
      backing.shared = true →
      (sendMessage k cid mid len).isDetachPanicked = false) := by
  refine ⟨?_, ?_, ?_, ?_, ?_, ?_⟩
  · intro mem str p h
    simp [parseProp, h]
  · intro mem str p h hs
    simp [parseProp, h, hs]
  · intro mem str p name h hs
    simp [parseProp, h, hs]
  · intro k cid mid len task channel range h1 h2 h3 h4 h5
    refine ⟨(sendMessage k cid mid len).state, ?_⟩
    simp only [sendMessage, h1, h2, h3, if_neg h4, MemoryManager.deallocRegion,
      h5, Outcome.state]
  · intro k cid mid len task channel range backing h1 h2 h3 h4 h5 h6
    refine ⟨(sendMessage k cid mid len).state, ?_⟩
    simp only [sendMessage, h1, h2, h3, if_neg h4, MemoryManager.deallocRegion,
      h5, h6, Bool.not_false, if_true, Outcome.state]
  · intro k cid mid len task channel range backing h1 h2 h3 h4 h5 h6
    simp only [sendMessage, h1, h2, h3, if_neg h4, MemoryManager.deallocRegion,
      h5, h6, Bool.not_true, Bool.false_eq_true, if_false, Kernel.updateTask,
      Mmap.find?_insert, MemoryManager.applySharedRegion]
    by_cases h7 : k.currentTid = channel.other_task
    · simp only [if_pos h7]
      by_cases h8 : cid = channel.other_channel_id
      · simp [Mmap.find?_insert, h8, Outcome.isDetachPanicked]
      · simp only [Mmap.find?_insert, if_neg h8]
        cases h9 : task.channels.find? channel.other_channel_id with
        | none => simp [h9, Outcome.isDetachPanicked]
        | some oc => simp [h9, Outcome.isDetachPanicked]
    · simp only [if_neg h7]
      cases h9 : k.tasks.find? channel.other_task with
      | none => simp [h9, Outcome.isDetachPanicked]
      | some other =>
        cases h10 : other.channels.find? channel.other_channel_id with
        | none => simp [h9, h10, Outcome.isDetachPanicked]
        | some oc => simp [h9, h10, Outcome.isDetachPanicked]

/-- C9 witness: the amended panic conditions at concrete inputs — a stream
whose token is not `FDT_PROP`, and a send whose outbound range has no
mapping to detach. -/
theorem C9_panic_conditions_witness :
    parseProp [0, 0, 0, 0] noNames 0 = PropOutcome.panicked .badPropToken ∧
    (∃ k', sendMessage kDetach 0 0 5 = .panicked .detachNotShared k') :=
  ⟨C9_panic_conditions.1 [0, 0, 0, 0] noNames 0 (by decide),
   C9_panic_conditions.2.2.2.1 kDetach 0 0 5
     { tskStaged with memory_manager := { regions := [], nextFree := 8192 } }
     chStaged ⟨4096, 8192⟩ rfl rfl rfl (by decide) rfl⟩

/-- C5: `request_channel` applies its checks in order, first match
winning: a self-request yields `InvalidArgument(0)`; an absent or Dead
target yields `InvalidRecipient`; a live non-promiscuous target yields a
successful `ChannelRequestDenied` with the whole kernel state (caller
state, target queue and request set included) unchanged; otherwise the
caller's tid is inserted into the target's request set, a
`(kernel, ChannelRequest(caller))` notification is appended to the *back*
of the target's queue, the caller becomes `Blocked`, and the default
message is returned. -/
theorem C5_request_channel_cases (k : Kernel) (toTid : Nat) (fromTask : Task)
    (h0 : k.tasks.find? k.currentTid = some fromTask) :
    (k.currentTid = toTid →
      requestChannel k toTid = .err (.InvalidArgument 0) k) ∧
    (k.currentTid ≠ toTid → k.tasks.find? toTid = none →
      requestChannel k toTid = .err .InvalidRecipient k) ∧
    (∀ toTask, k.currentTid ≠ toTid → k.tasks.find? toTid = some toTask →
      toTask.state = .Dead →
      requestChannel k toTid = .err .InvalidRecipient k) ∧
    (∀ toTask, k.currentTid ≠ toTid → k.tasks.find? toTid = some toTask →
      toTask.state ≠ .Dead → toTask.promiscuous = false →
      requestChannel k toTid = .ok (Message.notif .ChannelRequestDenied) k) ∧
    (∀ toTask, k.currentTid ≠ toTid → k.tasks.find? toTid = some toTask →
      toTask.state ≠ .Dead → toTask.promiscuous = true →
      ∃ k', requestChannel k toTid = .ok Message.default k' ∧
        k'.tasks.find? k.currentTid =
          some { fromTask with state := TaskState.Blocked } ∧
        (∃ toTask', k'.tasks.find? toTid = some toTask' ∧
          toTask'.incoming_channel_request =
            insertSet toTask.incoming_channel_request k.currentTid ∧
          toTask'.message_queue = toTask.message_queue ++
            [(Sender.kernel, Message.notif (.ChannelRequest k.currentTid))] ∧
          toTask'.channels = toTask.channels ∧
          toTask'.state = toTask.state) ∧
        (∀ t, t ≠ k.currentTid → t ≠ toTid →
          k'.tasks.find? t = k.tasks.find? t)) := by
  refine ⟨?_, ?_, ?_, ?_, ?_⟩
  · intro h
    have h0' : k.tasks.find? toTid = some fromTask := h ▸ h0
    simp [requestChannel, h0', h]
  · intro h hn
    simp [requestChannel, h0, if_neg h, hn]
  · intro toTask h ht hd
    simp [requestChannel, h0, if_neg h, ht, hd, TaskState.isDead]
  · intro toTask h ht hd hp
    simp [requestChannel, h0, if_neg h, ht, TaskState.isDead_eq_false hd, hp]
  · intro toTask h ht hd hp
    refine ⟨(requestChannel k toTid).state, ?_, ?_, ?_, ?_⟩
    · simp only [requestChannel, h0, if_neg h, ht,
        TaskState.isDead_eq_false hd, hp, Bool.not_true, Bool.false_eq_true,
        if_false, Outcome.state]
    · simp only [requestChannel, h0, if_neg h, ht,
        TaskState.isDead_eq_false hd, hp, Bool.not_true, Bool.false_eq_true,
        if_false, Outcome.state, Kernel.updateTask]
      simp [Mmap.find?_insert]
    · refine ⟨{ toTask with
        incoming_channel_request :=
          insertSet toTask.incoming_channel_request k.currentTid,
        message_queue := toTask.message_queue ++
          [(Sender.kernel, Message.notif (.ChannelRequest k.currentTid))] },
        ?_, rfl, rfl, rfl, rfl⟩
      simp only [requestChannel, h0, if_neg h, ht,
        TaskState.isDead_eq_false hd, hp, Bool.not_true, Bool.false_eq_true,
        if_false, Outcome.state, Kernel.updateTask]
      have h' : ¬(k.currentTid = toTid) := h
      simp [Mmap.find?_insert, h']
    · intro t ht1 ht2
      have ht1' : ¬(k.currentTid = t) := fun hh => ht1 hh.symm
      have ht2' : ¬(toTid = t) := fun hh => ht2 hh.symm
      simp only [requestChannel, h0, if_neg h, ht,
        TaskState.isDead_eq_false hd, hp, Bool.not_true, Bool.false_eq_true,
        if_false, Outcome.state, Kernel.updateTask]
      simp [Mmap.find?_insert, ht1', ht2']

/-- C5 witness: the denial branch at the concrete state `kC5`, whose
target task 1 is alive but not promiscuous — the caller receives
`Ok(ChannelRequestDenied)` and the kernel state is unchanged. -/
theorem C5_request_channel_cases_witness :
    requestChannel kC5 1 = .ok (Message.notif .ChannelRequestDenied) kC5 :=
  (C5_request_channel_cases kC5 1 (freshTask 4096) rfl).2.2.2.1 shyTask
    (by decide) rfl (by decide) rfl

/-- Every key of a map is strictly below its next channel id. -/
theorem lt_nextChannelId_of_mem_keys {α : Type} (m : Mmap α) (j : Nat)
    (hj : j ∈ m.keys) : j < nextChannelId m := by
  cases hb : m.maxKey? with
  | none =>
    rw [Mmap.maxKey?_eq_none_iff] at hb
    subst hb
    simp [Mmap.keys] at hj
  | some b =>
    have h := Mmap.le_of_mem_keys_maxKey? m j b hb hj
    unfold nextChannelId
    rw [hb]
    exact Nat.lt_succ_of_le h

/-- The next channel id is never an existing key. -/
theorem nextChannelId_not_mem_keys {α : Type} (m : Mmap α) :
    nextChannelId m ∉ m.keys :=
  fun h => absurd (lt_nextChannelId_of_mem_keys m _ h) (lt_irrefl _)

/-- The next channel id is exactly one past the maximum key, or 0 when the
map is empty. -/
theorem nextChannelId_spec {α : Type} (m : Mmap α) :
    (m = [] → nextChannelId m = 0) ∧
    (∀ b, m.maxKey? = some b → nextChannelId m = b + 1) := by
  constructor
  · intro h
    subst h
    rfl
  · intro b hb
    unfold nextChannelId
    rw [hb]

/-- Appending a cell to the counter pool puts its initial value at the old
length. -/
theorem getD_append_self (l : List Nat) (v : Nat) :
    (l ++ [v]).getD l.length 0 = v := by
  induction l with
  | nil => rfl
  | cons a tl ih => simp [ih]

/-- C6: on a live, distinct target, `create_channel` allocates each side's
channel id as one greater than the maximum existing key (0 on an empty
map, and in particular fresh and larger than every existing id), installs
two endpoints whose `peer_task`/`peer_endpoint` fields cross-reference
each other and which share one counter cell holding 0, removes the target
from the *caller's* `incoming_channel_request` (setting the target
`Running` exactly when it was present), pushes `ChannelOpened(to_cid)` to
the *front* of the target's queue, and returns `Ok(from_cid)`. -/
theorem C6_create_channel (k : Kernel) (toTid : Nat) (fromTask toTask : Task)
    (h0 : k.tasks.find? k.currentTid = some fromTask)
    (h1 : k.currentTid ≠ toTid)
    (h2 : k.tasks.find? toTid = some toTask)
    (h3 : toTask.state ≠ .Dead) :
    (fromTask.channels = [] → nextChannelId fromTask.channels = 0) ∧
    (∀ b, fromTask.channels.maxKey? = some b →
      nextChannelId fromTask.channels = b + 1) ∧
    (toTask.channels = [] → nextChannelId toTask.channels = 0) ∧
    (∀ b, toTask.channels.maxKey? = some b →
      nextChannelId toTask.channels = b + 1) ∧
    nextChannelId fromTask.channels ∉ fromTask.channels.keys ∧
    (∀ j ∈ fromTask.channels.keys, j < nextChannelId fromTask.channels) ∧
    nextChannelId toTask.channels ∉ toTask.channels.keys ∧
    (∀ j ∈ toTask.channels.keys, j < nextChannelId toTask.channels) ∧
    ∃ k', createChannel k toTid = .ok (nextChannelId fromTask.channels) k' ∧
      ∃ fromTask' toTask',
        k'.tasks.find? k.currentTid = some fromTask' ∧
        k'.tasks.find? toTid = some toTask' ∧
        (∃ fc tc,
          fromTask'.channels.find? (nextChannelId fromTask.channels) = some fc ∧
          toTask'.channels.find? (nextChannelId toTask.channels) = some tc ∧
          fc.other_task = toTid ∧
          fc.other_channel_id = nextChannelId toTask.channels ∧
          tc.other_task = k.currentTid ∧
          tc.other_channel_id = nextChannelId fromTask.channels ∧
          fc.message_id_counter = tc.message_id_counter ∧
          k'.counters.getD fc.message_id_counter 0 = 0 ∧
          fc.write_regions = [] ∧ fc.read_regions = [] ∧
          tc.write_regions = [] ∧ tc.read_regions = []) ∧
        fromTask'.incoming_channel_request =
          fromTask.incoming_channel_request.filter (fun y => y != toTid) ∧
        (toTid ∈ fromTask.incoming_channel_request →
          toTask'.state = TaskState.Running) ∧
        (toTid ∉ fromTask.incoming_channel_request →
          toTask'.state = toTask.state) ∧
        toTask'.message_queue =
          (Sender.kernel,
            Message.notif (.ChannelOpened (nextChannelId toTask.channels))) ::
            toTask.message_queue := by
  have h1' : ¬(k.currentTid = toTid) := h1
  have htt : ¬(toTid = k.currentTid) := fun hh => h1 hh.symm
  have htd : toTask.state.isDead = false := TaskState.isDead_eq_false h3
  refine ⟨(nextChannelId_spec fromTask.channels).1,
    (nextChannelId_spec fromTask.channels).2,
    (nextChannelId_spec toTask.channels).1,
    (nextChannelId_spec toTask.channels).2,
    nextChannelId_not_mem_keys fromTask.channels,
    (fun j hj => lt_nextChannelId_of_mem_keys fromTask.channels j hj),
    nextChannelId_not_mem_keys toTask.channels,
    (fun j hj => lt_nextChannelId_of_mem_keys toTask.channels j hj),
    (createChannel k toTid).state, ?_, ?_⟩
  · simp only [createChannel, h0, if_neg h1', h2, htd, Bool.false_eq_true,
      if_false, Outcome.state]
  · refine ⟨{ fromTask with
        incoming_channel_request :=
          fromTask.incoming_channel_request.filter (fun y => y != toTid),
        channels :=
          fromTask.channels.insert (nextChannelId fromTask.channels)
            { other_task := toTid,
              other_channel_id := nextChannelId toTask.channels,
              message_id_counter := k.counters.length,
              write_regions := [], read_regions := [] } },
      { toTask with
        state :=
          if toTid ∈ fromTask.incoming_channel_request then TaskState.Running
          else toTask.state,
        channels :=
          toTask.channels.insert (nextChannelId toTask.channels)
            { other_task := k.currentTid,
              other_channel_id := nextChannelId fromTask.channels,
              message_id_counter := k.counters.length,
              write_regions := [], read_regions := [] },
        message_queue := (Sender.kernel,
          Message.notif (.ChannelOpened (nextChannelId toTask.channels))) ::
            toTask.message_queue },
      ?_, ?_, ?_, rfl, ?_, ?_, rfl⟩
    · simp only [createChannel, h0, if_neg h1', h2, htd, Bool.false_eq_true,
        if_false, Outcome.state, Kernel.updateTask, Mmap.find?_insert,
        if_neg htt, if_pos rfl, removeSet]
      by_cases hreq : toTid ∈ fromTask.incoming_channel_request <;>
        simp [hreq]
    · simp only [createChannel, h0, if_neg h1', h2, htd, Bool.false_eq_true,
        if_false, Outcome.state, Kernel.updateTask, Mmap.find?_insert,
        if_pos rfl, removeSet]
      by_cases hreq : toTid ∈ fromTask.incoming_channel_request <;>
        simp [hreq]
    · refine ⟨
        { other_task := toTid,
          other_channel_id := nextChannelId toTask.channels,
          message_id_counter := k.counters.length,
          write_regions := [], read_regions := [] },
        { other_task := k.currentTid,
          other_channel_id := nextChannelId fromTask.channels,
          message_id_counter := k.counters.length,
          write_regions := [], read_regions := [] },
        ?_, ?_, rfl, rfl, rfl, rfl, rfl, ?_, rfl, rfl, rfl, rfl⟩
      · simp [Mmap.find?_insert]
      · simp [Mmap.find?_insert]
      · simp only [createChannel, h0, if_neg h1', h2, htd, Bool.false_eq_true,
          if_false, Outcome.state]
        exact getD_append_self k.counters 0
    · intro hreq
      simp [hreq]
    · intro hreq
      simp [hreq]

/-- C6 witness: creating the first channel between the two fresh tasks of
`twoTasks` returns channel id 0. -/
theorem C6_create_channel_witness :
    ∃ k', createChannel twoTasks 1 = .ok 0 k' := by
  obtain ⟨-, -, -, -, -, -, -, -, k', hk, -⟩ :=
    C6_create_channel twoTasks 1 (freshTask 4096) (freshTask 8192) rfl
      (by decide) rfl (by decide)
  exact ⟨k', hk⟩

/-- What `minEntry?` returns is the least key together with its value. -/
theorem minEntry?_spec {α : Type} (m : Mmap α) (b : Nat) (v : α)
    (h : m.minEntry? = some (b, v)) :
    m.minKey? = some b ∧ m.find? b = some v := by
  unfold Mmap.minEntry? at h
  cases hk : m.minKey? with
  | none => simp [hk] at h
  | some k0 =>
    simp only [hk] at h
    cases hv : m.find? k0 with
    | none => simp [hv] at h
    | some v0 =>
      simp only [hv, Option.some.injEq, Prod.mk.injEq] at h
      obtain ⟨rfl, rfl⟩ := h
      exact ⟨rfl, hv⟩

/-- A nonempty map has a least entry. -/
theorem minEntry?_isSome_of_ne_nil {α : Type} (m : Mmap α) (h : m ≠ []) :
    ∃ b v, m.minEntry? = some (b, v) := by
  cases hk : m.minKey? with
  | none =>
    rw [Mmap.minKey?_eq_none_iff] at hk
    exact absurd hk h
  | some b =>
    have hmem := Mmap.minKey?_mem_keys m b hk
    rw [Mmap.mem_keys_iff_find?] at hmem
    cases hv : m.find? b with
    | none => rw [hv] at hmem; cases hmem
    | some v =>
      refine ⟨b, v, ?_⟩
      simp [Mmap.minEntry?, hk, hv]

/-- `read_message` never changes the kernel state. -/
theorem readMessage_state (k : Kernel) (cid : Nat) :
    (readMessage k cid).state = k := by
  unfold readMessage
  repeat' split
  all_goals rfl

/-- C8: with the channel resolved, `read_message` returns the `(0, 0, 0)`
sentinel when the inbound map is empty and otherwise the entry with the
*smallest* `MessageId` as `(message_id, range.start, len)`; the kernel
state (in particular the inbound map) is unchanged, so a second
`read_message` returns the same triple. -/
theorem C8_read_message (k : Kernel) (cid : Nat)
    (task : Task) (channel : UserspaceChannel)
    (h0 : k.tasks.find? k.currentTid = some task)
    (h1 : task.channels.find? cid = some channel) :
    (channel.read_regions = [] → readMessage k cid = .ok (0, 0, 0) k) ∧
    (∀ mid region len,
      channel.read_regions.minEntry? = some (mid, (region, len)) →
      readMessage k cid = .ok (mid, region.start, len) k ∧
      mid ∈ channel.read_regions.keys ∧
      channel.read_regions.find? mid = some (region, len) ∧
      (∀ j ∈ channel.read_regions.keys, mid ≤ j)) ∧
    (channel.read_regions ≠ [] →
      ∃ mid region len,
        channel.read_regions.minEntry? = some (mid, (region, len))) ∧
    (readMessage k cid).state = k ∧
    readMessage ((readMessage k cid).state) cid = readMessage k cid := by
  refine ⟨?_, ?_, ?_, readMessage_state k cid, ?_⟩
  · intro h
    simp [readMessage, h0, h1, h, Mmap.minEntry?, Mmap.minKey?]
  · intro mid region len h
    obtain ⟨hk, hv⟩ := minEntry?_spec channel.read_regions mid (region, len) h
    refine ⟨?_, ?_, hv, ?_⟩
    · simp [readMessage, h0, h1, h]
    · rw [Mmap.mem_keys_iff_find?, hv]
      rfl
    · intro j hj
      exact Mmap.minKey?_le_of_mem_keys channel.read_regions j mid hk hj
  · intro h
    obtain ⟨b, v, hv⟩ := minEntry?_isSome_of_ne_nil channel.read_regions h
    exact ⟨b, v.1, v.2, by simpa using hv⟩
  · rw [readMessage_state k cid]

/-- C8 witness: at the concrete state `kC8`, whose inbox holds message ids
5 and 2, `read_message` returns the entry with the smaller id 2 and leaves
the state unchanged. -/
theorem C8_read_message_witness :
    readMessage kC8 0 = .ok (2, 9000, 7) kC8 ∧
    readMessage ((readMessage kC8 0).state) 0 = readMessage kC8 0 := by
  have h := C8_read_message kC8 0
    { freshTask 4096 with channels := [(0, chInbox)] } chInbox rfl rfl
  exact ⟨(h.2.1 2 ⟨9000, 13096⟩ 7 (by decide)).1, h.2.2.2.2⟩

/-! ## Counter-pool lemmas -/

theorem getD_set_self (l : List Nat) (i v : Nat) (h : i < l.length) :
    (l.set i v).getD i 0 = v := by
  induction l generalizing i with
  | nil => simp at h
  | cons a tl ih =>
    cases i with
    | zero => rfl
    | succ n => simpa using ih n (by simpa using h)

theorem getD_set_ne (l : List Nat) (i j v : Nat) (h : i ≠ j) :
    (l.set i v).getD j 0 = l.getD j 0 := by
  induction l generalizing i j with
  | nil => rfl
  | cons a tl ih =>
    cases i with
    | zero =>
      cases j with
      | zero => exact absurd rfl h
      | succ m => rfl
    | succ n =>
      cases j with
      | zero => rfl
      | succ m => simpa using ih n m (fun hh => h (by rw [hh]))

theorem getD_append_left (l l' : List Nat) (c : Nat) (h : c < l.length) :
    (l ++ l').getD c 0 = l.getD c 0 := by
  induction l generalizing c with
  | nil => simp at h
  | cons a tl ih =>
    cases c with
    | zero => rfl
    | succ n => simpa using ih n (by simpa using h)

theorem getD_le_getD_append (l l' : List Nat) (c : Nat) :
    l.getD c 0 ≤ (l ++ l').getD c 0 := by
  induction l generalizing c with
  | nil => simp
  | cons a tl ih =>
    cases c with
    | zero => simp
    | succ n => simpa using ih n

theorem getD_le_getD_set_incr (l : List Nat) (i c : Nat) :
    l.getD c 0 ≤ (l.set i (l.getD i 0 + 1)).getD c 0 := by
  induction l generalizing i c with
  | nil => simp
  | cons a tl ih =>
    cases i with
    | zero =>
      cases c with
      | zero => simp
      | succ n => simp
    | succ m =>
      cases c with
      | zero => simp
      | succ n => simpa using ih m n

/-! ## Invariant infrastructure -/

theorem chanAt_updateTask (k : Kernel) (tid : Nat) (task : Task) (t c : Nat) :
    chanAt (k.updateTask tid task) t c =
      if tid = t then task.channels.find? c else chanAt k t c := by
  by_cases h : tid = t
  · simp [chanAt, Kernel.updateTask, Mmap.find?_insert, h]
  · simp [chanAt, Kernel.updateTask, Mmap.find?_insert, h]

theorem counters_updateTask (k : Kernel) (tid : Nat) (task : Task) :
    (k.updateTask tid task).counters = k.counters :=
  rfl

theorem initKernel_chanAt (tids : List Nat) (cur t c : Nat) :
    chanAt (initKernel tids cur) t c = none := by
  unfold chanAt initKernel
  induction tids with
  | nil => rfl
  | cons a tl ih =>
    simp only [List.map_cons]
    by_cases h : a = t
    · simp [Mmap.find?, h, freshTask, Mmap.find?]
    · simpa [Mmap.find?, h] using ih

/-- The initial kernel satisfies the invariant. -/
theorem inv_initKernel (tids : List Nat) (cur : Nat) :
    Inv (initKernel tids cur) := by
  have hz : ∀ t c, chanAt (initKernel tids cur) t c = none :=
    fun t c => initKernel_chanAt tids cur t c
  constructor
  · intro t c ch h
    rw [hz] at h; cases h
  · intro t c ch m h hm
    rw [hz] at h; cases h
  · intro t c ch h
    rw [hz] at h; cases h
  · intro t c ch h
    rw [hz] at h; cases h
  · intro t1 c1 ch1 t2 c2 ch2 h1 h2 hc hne
    rw [hz] at h1; cases h1
  · intro t c ch m h
    rw [hz] at h; cases h
  · intro t1 c1 ch1 t2 c2 ch2 m h1 h2 hc hne
    rw [hz] at h1; cases h1

/-- The reference clauses of the invariant transfer along any state change
that preserves which slots hold channels and the peer/counter fields of
each, as long as the counter pool does not shrink. -/
theorem inv_refs_transfer (k k' : Kernel)
    (hi : Inv k)
    (Hlen : k.counters.length ≤ k'.counters.length)
    (Hval : ∀ t c, (chanAt k' t c = none ∧ chanAt k t c = none) ∨
      (∃ ch' ch, chanAt k' t c = some ch' ∧ chanAt k t c = some ch ∧
        ch'.other_task = ch.other_task ∧
        ch'.other_channel_id = ch.other_channel_id ∧
        ch'.message_id_counter = ch.message_id_counter)) :
    (∀ t c ch, chanAt k' t c = some ch →
      ch.message_id_counter < k'.counters.length) ∧
    (∀ t c ch, chanAt k' t c = some ch → ch.other_task ≠ t) ∧
    (∀ t c ch, chanAt k' t c = some ch →
      ∃ ch2, chanAt k' ch.other_task ch.other_channel_id = some ch2 ∧
        ch2.message_id_counter = ch.message_id_counter ∧
        ch2.other_task = t ∧ ch2.other_channel_id = c) ∧
    (∀ t1 c1 ch1 t2 c2 ch2,
      chanAt k' t1 c1 = some ch1 → chanAt k' t2 c2 = some ch2 →
      ch1.message_id_counter = ch2.message_id_counter →
      ¬(t1 = t2 ∧ c1 = c2) →
      ch1.other_task = t2 ∧ ch1.other_channel_id = c2) := by
  have proj : ∀ t c ch', chanAt k' t c = some ch' →
      ∃ ch, chanAt k t c = some ch ∧
        ch'.other_task = ch.other_task ∧
        ch'.other_channel_id = ch.other_channel_id ∧
        ch'.message_id_counter = ch.message_id_counter := by
    intro t c ch' h
    rcases Hval t c with ⟨h1, _⟩ | ⟨ch'', ch, h1, h2, h3, h4, h5⟩
    · rw [h1] at h; cases h
    · rw [h1] at h
      cases h
      exact ⟨ch, h2, h3, h4, h5⟩
  have lift : ∀ t c ch, chanAt k t c = some ch →
      ∃ ch', chanAt k' t c = some ch' ∧
        ch'.other_task = ch.other_task ∧
        ch'.other_channel_id = ch.other_channel_id ∧
        ch'.message_id_counter = ch.message_id_counter := by
    intro t c ch h
    rcases Hval t c with ⟨_, h2⟩ | ⟨ch', ch'', h1, h2, h3, h4, h5⟩
    · rw [h2] at h; cases h
    · rw [h2] at h
      cases h
      exact ⟨ch', h1, h3, h4, h5⟩
  refine ⟨?_, ?_, ?_, ?_⟩
  · intro t c ch h
    obtain ⟨ch0, h0, -, -, hctr⟩ := proj t c ch h
    rw [hctr]
    exact lt_of_lt_of_le (hi.ctrBound t c ch0 h0) Hlen
  · intro t c ch h
    obtain ⟨ch0, h0, hot, -, -⟩ := proj t c ch h
    rw [hot]
    exact hi.noSelf t c ch0 h0
  · intro t c ch h
    obtain ⟨ch0, h0, hot, hoc, hctr⟩ := proj t c ch h
    obtain ⟨ch2, h2, hc2, ht2, hcc2⟩ := hi.coherent t c ch0 h0
    obtain ⟨ch2', h2', ht2', hc2', hctr2'⟩ := lift _ _ _ h2
    refine ⟨ch2', ?_, ?_, ?_, ?_⟩
    · rw [hot, hoc]; exact h2'
    · rw [hctr2', hc2, hctr]
    · rw [ht2', ht2]
    · rw [hc2', hcc2]
  · intro t1 c1 ch1 t2 c2 ch2 h1 h2 hctr hne
    obtain ⟨ch10, h10, hot1, hoc1, hctr1⟩ := proj t1 c1 ch1 h1
    obtain ⟨ch20, h20, -, -, hctr2⟩ := proj t2 c2 ch2 h2
    have : ch10.message_id_counter = ch20.message_id_counter := by
      rw [← hctr1, ← hctr2, hctr]
    obtain ⟨ha, hb⟩ := hi.pairUnique t1 c1 ch10 t2 c2 ch20 h10 h20 this hne
    exact ⟨by rw [hot1, ha], by rw [hoc1, hb]⟩

/-- The invariant transfers along a state change that leaves the counter
pool and every slot's channel untouched. -/
theorem inv_congr (k k' : Kernel) (hc : k'.counters = k.counters)
    (h : ∀ t c, chanAt k' t c = chanAt k t c) (hi : Inv k) : Inv k' := by
  constructor
  · intro t c ch hh
    rw [h] at hh
    rw [hc]
    exact hi.ctrBound t c ch hh
  · intro t c ch m hh hm
    rw [h] at hh
    have := hi.idBound t c ch m hh hm
    simpa [counterVal, hc] using this
  · intro t c ch hh
    rw [h] at hh
    exact hi.noSelf t c ch hh
  · intro t c ch hh
    rw [h] at hh
    obtain ⟨ch2, h2, rest⟩ := hi.coherent t c ch hh
    exact ⟨ch2, by rw [h]; exact h2, rest⟩
  · intro t1 c1 ch1 t2 c2 ch2 h1 h2 hcc hne
    rw [h] at h1 h2
    exact hi.pairUnique t1 c1 ch1 t2 c2 ch2 h1 h2 hcc hne
  · intro t c ch m hh
    rw [h] at hh
    exact hi.intraDisj t c ch m hh
  · intro t1 c1 ch1 t2 c2 ch2 m h1 h2 hcc hne
    rw [h] at h1 h2
    exact hi.interDisj t1 c1 ch1 t2 c2 ch2 m h1 h2 hcc hne

/-- Replacing one task's record without changing its channel map preserves
the invariant. -/
theorem inv_update_mm (k : Kernel) (t0 : Nat) (task0 task' : Task)
    (hi : Inv k)
    (h0 : k.tasks.find? t0 = some task0)
    (htask : task'.channels = task0.channels) :
    Inv (k.updateTask t0 task') := by
  refine inv_congr k (k.updateTask t0 task') rfl ?_ hi
  intro t c
  rw [chanAt_updateTask]
  by_cases ht : t0 = t
  · subst ht
    rw [if_pos rfl, htask]
    simp [chanAt, h0]
  · rw [if_neg ht]

/-- Replacing one slot's channel by one with the same peer/counter fields
and fewer (or the same) pending message ids preserves the invariant. -/
theorem inv_update_channel_shrink (k : Kernel) (t0 c0 : Nat)
    (task0 task' : Task) (ch ch' : UserspaceChannel)
    (hi : Inv k)
    (h0 : k.tasks.find? t0 = some task0)
    (hch : task0.channels.find? c0 = some ch)
    (hf1 : ch'.other_task = ch.other_task)
    (hf2 : ch'.other_channel_id = ch.other_channel_id)
    (hf3 : ch'.message_id_counter = ch.message_id_counter)
    (hW : ∀ m ∈ ch'.write_regions.keys, m ∈ ch.write_regions.keys)
    (hR : ∀ m ∈ ch'.read_regions.keys, m ∈ ch.read_regions.keys)
    (htask : task'.channels = task0.channels.insert c0 ch') :
    Inv (k.updateTask t0 task') := by
  have hbase : chanAt k t0 c0 = some ch := by
    simp [chanAt, h0, hch]
  have hcat : ∀ t c, chanAt (k.updateTask t0 task') t c =
      if t0 = t ∧ c0 = c then some ch' else chanAt k t c := by
    intro t c
    rw [chanAt_updateTask]
    by_cases ht : t0 = t
    · subst ht
      rw [if_pos rfl, htask, Mmap.find?_insert]
      by_cases hcc : c0 = c
      · simp [hcc]
      · simp [hcc, chanAt, h0]
    · rw [if_neg ht, if_neg (fun hh => ht hh.1)]
  have hK : ∀ m ∈ chanKeys ch', m ∈ chanKeys ch := by
    intro m hm
    rcases List.mem_append.mp hm with hm | hm
    · exact List.mem_append.mpr (Or.inl (hW m hm))
    · exact List.mem_append.mpr (Or.inr (hR m hm))
  have Hval : ∀ t c, (chanAt (k.updateTask t0 task') t c = none ∧
      chanAt k t c = none) ∨
      (∃ chA chB, chanAt (k.updateTask t0 task') t c = some chA ∧
        chanAt k t c = some chB ∧
        chA.other_task = chB.other_task ∧
        chA.other_channel_id = chB.other_channel_id ∧
        chA.message_id_counter = chB.message_id_counter) := by
    intro t c
    rw [hcat]
    by_cases h : t0 = t ∧ c0 = c
    · right
      refine ⟨ch', ch, by rw [if_pos h], ?_, hf1, hf2, hf3⟩
      obtain ⟨rfl, rfl⟩ := h
      exact hbase
    · rw [if_neg h]
      cases hk : chanAt k t c with
      | none => exact Or.inl ⟨rfl, rfl⟩
      | some chB => exact Or.inr ⟨chB, chB, rfl, rfl, rfl, rfl, rfl⟩
  obtain ⟨hctr, hns, hcoh, hpu⟩ :=
    inv_refs_transfer k (k.updateTask t0 task') hi (le_refl _) Hval
  refine ⟨hctr, ?_, hns, hcoh, hpu, ?_, ?_⟩
  · intro t c ch2 m hh hm
    rw [hcat] at hh
    by_cases h : t0 = t ∧ c0 = c
    · rw [if_pos h] at hh
      cases hh
      have := hi.idBound t0 c0 ch m hbase (hK m hm)
      simpa [counterVal, hf3] using this
    · rw [if_neg h] at hh
      have := hi.idBound t c ch2 m hh hm
      simpa [counterVal] using this
  · intro t c ch2 m hh
    rw [hcat] at hh
    by_cases h : t0 = t ∧ c0 = c
    · rw [if_pos h] at hh
      cases hh
      intro ⟨hw, hr⟩
      exact hi.intraDisj t0 c0 ch m hbase ⟨hW m hw, hR m hr⟩
    · rw [if_neg h] at hh
      exact hi.intraDisj t c ch2 m hh
  · intro t1 c1 ch1 t2 c2 ch2 m h1 h2 hcc hne
    rw [hcat] at h1 h2
    by_cases ha : t0 = t1 ∧ c0 = c1 <;> by_cases hb : t0 = t2 ∧ c0 = c2
    · exact absurd ⟨ha.1 ▸ hb.1.symm ▸ rfl, by omega⟩ hne
    · rw [if_pos ha] at h1
      rw [if_neg hb] at h2
      cases h1
      intro ⟨hm1, hm2⟩
      have hcc' : ch.message_id_counter = ch2.message_id_counter := by
        rw [← hf3, hcc]
      have hne' : ¬(t0 = t2 ∧ c0 = c2) := hb
      obtain ⟨rfl, rfl⟩ := ha
      exact hi.interDisj t0 c0 ch t2 c2 ch2 m hbase h2 hcc' hne'
        ⟨hK m hm1, hm2⟩
    · rw [if_neg ha] at h1
      rw [if_pos hb] at h2
      cases h2
      intro ⟨hm1, hm2⟩
      have hcc' : ch1.message_id_counter = ch.message_id_counter := by
        rw [hcc, hf3]
      obtain ⟨rfl, rfl⟩ := hb
      exact hi.interDisj t1 c1 ch1 t0 c0 ch m h1 hbase hcc'
        (fun hh => ha ⟨hh.1.symm, hh.2.symm⟩) ⟨hm1, hK m hm2⟩
    · rw [if_neg ha] at h1
      rw [if_neg hb] at h2
      exact hi.interDisj t1 c1 ch1 t2 c2 ch2 m h1 h2 hcc hne

/-- Inserting a fresh pending inbound message id into one slot preserves
the invariant, provided the id is below the slot's counter value and
pending nowhere among the slots sharing that counter. -/
theorem inv_extend_read (k : Kernel) (u d : Nat) (other task' : Task)
    (och : UserspaceChannel) (mid : Nat) (v : VRange × Nat)
    (hi : Inv k)
    (h0 : k.tasks.find? u = some other)
    (hoc : other.channels.find? d = some och)
    (hmidlt : mid < counterVal k och.message_id_counter)
    (hmidout : ∀ t c chX, chanAt k t c = some chX →
      chX.message_id_counter = och.message_id_counter → mid ∉ chanKeys chX)
    (htask : task'.channels = other.channels.insert d
      { och with read_regions := och.read_regions.insert mid v }) :
    Inv (k.updateTask u task') := by
  have hbase : chanAt k u d = some och := by
    simp [chanAt, h0, hoc]
  have hcat : ∀ t c, chanAt (k.updateTask u task') t c =
      if u = t ∧ d = c then
        some { och with read_regions := och.read_regions.insert mid v }
      else chanAt k t c := by
    intro t c
    rw [chanAt_updateTask]
    by_cases ht : u = t
    · subst ht
      rw [if_pos rfl, htask, Mmap.find?_insert]
      by_cases hcc : d = c
      · simp [hcc]
      · simp [hcc, chanAt, h0]
    · rw [if_neg ht, if_neg (fun hh => ht hh.1)]
  have hkeys : ∀ m, m ∈ chanKeys
      { och with read_regions := och.read_regions.insert mid v } →
      m = mid ∨ m ∈ chanKeys och := by
    intro m hm
    rcases List.mem_append.mp hm with hm | hm
    · exact Or.inr (List.mem_append.mpr (Or.inl hm))
    · rcases (Mmap.mem_keys_insert _ _ _ _).mp hm with hm | ⟨hm, -⟩
      · exact Or.inl hm
      · exact Or.inr (List.mem_append.mpr (Or.inr hm))
  have Hval : ∀ t c, (chanAt (k.updateTask u task') t c = none ∧
      chanAt k t c = none) ∨
      (∃ chA chB, chanAt (k.updateTask u task') t c = some chA ∧
        chanAt k t c = some chB ∧
        chA.other_task = chB.other_task ∧
        chA.other_channel_id = chB.other_channel_id ∧
        chA.message_id_counter = chB.message_id_counter) := by
    intro t c
    rw [hcat]
    by_cases h : u = t ∧ d = c
    · right
      refine ⟨{ och with read_regions := och.read_regions.insert mid v }, och,
        by rw [if_pos h], ?_, rfl, rfl, rfl⟩
      obtain ⟨rfl, rfl⟩ := h
      exact hbase
    · rw [if_neg h]
      cases hk : chanAt k t c with
      | none => exact Or.inl ⟨rfl, rfl⟩
      | some chB => exact Or.inr ⟨chB, chB, rfl, rfl, rfl, rfl, rfl⟩
  obtain ⟨hctr, hns, hcoh, hpu⟩ :=
    inv_refs_transfer k (k.updateTask u task') hi (le_refl _) Hval
  refine ⟨hctr, ?_, hns, hcoh, hpu, ?_, ?_⟩
  · intro t c ch2 m hh hm
    rw [hcat] at hh
    by_cases h : u = t ∧ d = c
    · rw [if_pos h] at hh
      cases hh
      rcases hkeys m hm with rfl | hm'
      · simpa [counterVal] using hmidlt
      · have := hi.idBound u d och m hbase hm'
        simpa [counterVal] using this
    · rw [if_neg h] at hh
      have := hi.idBound t c ch2 m hh hm
      simpa [counterVal] using this
  · intro t c ch2 m hh
    rw [hcat] at hh
    by_cases h : u = t ∧ d = c
    · rw [if_pos h] at hh
      cases hh
      intro ⟨hw, hr⟩
      rcases (Mmap.mem_keys_insert _ _ _ _).mp hr with rfl | ⟨hr', -⟩
      · exact hmidout u d och hbase rfl (List.mem_append.mpr (Or.inl hw))
      · exact hi.intraDisj u d och m hbase ⟨hw, hr'⟩
    · rw [if_neg h] at hh
      exact hi.intraDisj t c ch2 m hh
  · intro t1 c1 ch1 t2 c2 ch2 m h1 h2 hcc hne
    rw [hcat] at h1 h2
    by_cases ha : u = t1 ∧ d = c1 <;> by_cases hb : u = t2 ∧ d = c2
    · exact absurd ⟨ha.1 ▸ hb.1.symm ▸ rfl, by omega⟩ hne
    · rw [if_pos ha] at h1
      rw [if_neg hb] at h2
      cases h1
      intro ⟨hm1, hm2⟩
      have hcc' : ch2.message_id_counter = och.message_id_counter := by
        rw [← hcc]
      rcases hkeys m hm1 with rfl | hm1'
      · exact hmidout t2 c2 ch2 h2 hcc' hm2
      · obtain ⟨rfl, rfl⟩ := ha
        exact hi.interDisj u d och t2 c2 ch2 m hbase h2 hcc hb ⟨hm1', hm2⟩
    · rw [if_neg ha] at h1
      rw [if_pos hb] at h2
      cases h2
      intro ⟨hm1, hm2⟩
      have hcc' : ch1.message_id_counter = och.message_id_counter := hcc
      rcases hkeys m hm2 with rfl | hm2'
      · exact hmidout t1 c1 ch1 h1 hcc' hm1
      · obtain ⟨rfl, rfl⟩ := hb
        exact hi.interDisj t1 c1 ch1 u d och m h1 hbase hcc
          (fun hh => ha ⟨hh.1.symm, hh.2.symm⟩) ⟨hm1, hm2'⟩
    · rw [if_neg ha] at h1
      rw [if_neg hb] at h2
      exact hi.interDisj t1 c1 ch1 t2 c2 ch2 m h1 h2 hcc hne

/-- The next channel id has no binding. -/
theorem find?_nextChannelId {α : Type} (m : Mmap α) :
    m.find? (nextChannelId m) = none := by
  cases h : m.find? (nextChannelId m) with
  | none => rfl
  | some v =>
    exact absurd ((Mmap.mem_keys_iff_find? m _).mpr (by simp [h]))
      (nextChannelId_not_mem_keys m)

/-- Handing out a fresh message id on one slot (recording it in the slot's
outbound map and bumping the shared cell) preserves the invariant. -/
theorem inv_create_message (k : Kernel) (t0 c0 : Nat) (task0 task' : Task)
    (ch : UserspaceChannel) (region : VRange)
    (hi : Inv k)
    (h0 : k.tasks.find? t0 = some task0)
    (hch : task0.channels.find? c0 = some ch)
    (htask : task'.channels = task0.channels.insert c0
      { ch with
        write_regions :=
          ch.write_regions.insert (counterVal k ch.message_id_counter) region }) :
    Inv { k.updateTask t0 task' with
      counters := k.counters.set ch.message_id_counter
        (counterVal k ch.message_id_counter + 1) } := by
  set v := counterVal k ch.message_id_counter with hv
  set chNew : UserspaceChannel :=
    { ch with write_regions := ch.write_regions.insert v region } with hchNew
  set K : Kernel := { k.updateTask t0 task' with
    counters := k.counters.set ch.message_id_counter (v + 1) } with hK
  have hbase : chanAt k t0 c0 = some ch := by
    simp [chanAt, h0, hch]
  have hlt : ch.message_id_counter < k.counters.length :=
    hi.ctrBound t0 c0 ch hbase
  have hcat : ∀ t c, chanAt K t c =
      if t0 = t ∧ c0 = c then some chNew else chanAt k t c := by
    intro t c
    have : chanAt K t c = chanAt (k.updateTask t0 task') t c := rfl
    rw [this, chanAt_updateTask]
    by_cases ht : t0 = t
    · subst ht
      rw [if_pos rfl, htask, Mmap.find?_insert]
      by_cases hcc : c0 = c
      · simp [hcc]
      · simp [hcc, chanAt, h0]
    · rw [if_neg ht, if_neg (fun hh => ht hh.1)]
  have hcv : counterVal K ch.message_id_counter = v + 1 := by
    show (k.counters.set ch.message_id_counter (v + 1)).getD
      ch.message_id_counter 0 = v + 1
    exact getD_set_self k.counters ch.message_id_counter (v + 1) hlt
  have hcv' : ∀ c, c ≠ ch.message_id_counter → counterVal K c = counterVal k c := by
    intro c hc
    show (k.counters.set ch.message_id_counter (v + 1)).getD c 0 =
      k.counters.getD c 0
    exact getD_set_ne k.counters ch.message_id_counter c (v + 1)
      (fun hh => hc hh.symm)
  have hcvge : ∀ c, counterVal k c ≤ counterVal K c := by
    intro c
    by_cases hc : c = ch.message_id_counter
    · subst hc
      rw [hcv]
      omega
    · rw [hcv' c hc]
  have hKlen : K.counters.length = k.counters.length := by
    show (k.counters.set _ _).length = _
    simp
  have hkeysNew : ∀ m, m ∈ chanKeys chNew → m = v ∨ m ∈ chanKeys ch := by
    intro m hm
    rcases List.mem_append.mp hm with hm | hm
    · rcases (Mmap.mem_keys_insert _ _ _ _).mp hm with hm | ⟨hm, -⟩
      · exact Or.inl hm
      · exact Or.inr (List.mem_append.mpr (Or.inl hm))
    · exact Or.inr (List.mem_append.mpr (Or.inr hm))
  have Hval : ∀ t c, (chanAt K t c = none ∧ chanAt k t c = none) ∨
      (∃ chA chB, chanAt K t c = some chA ∧ chanAt k t c = some chB ∧
        chA.other_task = chB.other_task ∧
        chA.other_channel_id = chB.other_channel_id ∧
        chA.message_id_counter = chB.message_id_counter) := by
    intro t c
    rw [hcat]
    by_cases h : t0 = t ∧ c0 = c
    · right
      refine ⟨chNew, ch, by rw [if_pos h], ?_, rfl, rfl, rfl⟩
      obtain ⟨rfl, rfl⟩ := h
      exact hbase
    · rw [if_neg h]
      cases hk : chanAt k t c with
      | none => exact Or.inl ⟨rfl, rfl⟩
      | some chB => exact Or.inr ⟨chB, chB, rfl, rfl, rfl, rfl, rfl⟩
  obtain ⟨hctr, hns, hcoh, hpu⟩ :=
    inv_refs_transfer k K hi (le_of_eq hKlen.symm) Hval
  refine ⟨hctr, ?_, hns, hcoh, hpu, ?_, ?_⟩
  · intro t c ch2 m hh hm
    rw [hcat] at hh
    by_cases h : t0 = t ∧ c0 = c
    · rw [if_pos h] at hh
      cases hh
      have hctr2 : chNew.message_id_counter = ch.message_id_counter := rfl
      rw [hctr2, hcv]
      rcases hkeysNew m hm with rfl | hm'
      · omega
      · have := hi.idBound t0 c0 ch m hbase hm'
        omega
    · rw [if_neg h] at hh
      have h1 := hi.idBound t c ch2 m hh hm
      exact lt_of_lt_of_le h1 (hcvge ch2.message_id_counter)
  · intro t c ch2 m hh
    rw [hcat] at hh
    by_cases h : t0 = t ∧ c0 = c
    · rw [if_pos h] at hh
      cases hh
      intro ⟨hw, hr⟩
      rcases (Mmap.mem_keys_insert _ _ _ _).mp hw with rfl | ⟨hw', -⟩
      · have := hi.idBound t0 c0 ch v hbase (List.mem_append.mpr (Or.inr hr))
        omega
      · exact hi.intraDisj t0 c0 ch m hbase ⟨hw', hr⟩
    · rw [if_neg h] at hh
      exact hi.intraDisj t c ch2 m hh
  · intro t1 c1 ch1 t2 c2 ch2 m h1 h2 hcc hne
    rw [hcat] at h1 h2
    by_cases ha : t0 = t1 ∧ c0 = c1 <;> by_cases hb : t0 = t2 ∧ c0 = c2
    · exact absurd ⟨ha.1 ▸ hb.1.symm ▸ rfl, by omega⟩ hne
    · rw [if_pos ha] at h1
      rw [if_neg hb] at h2
      cases h1
      intro ⟨hm1, hm2⟩
      have hcc2 : ch2.message_id_counter = ch.message_id_counter := by
        rw [← hcc]
      rcases hkeysNew m hm1 with rfl | hm1'
      · have := hi.idBound t2 c2 ch2 v h2 hm2
        rw [hcc2] at this
        omega
      · obtain ⟨rfl, rfl⟩ := ha
        exact hi.interDisj t0 c0 ch t2 c2 ch2 m hbase h2
          (by rw [← hcc2]) hb ⟨hm1', hm2⟩
    · rw [if_neg ha] at h1
      rw [if_pos hb] at h2
      cases h2
      intro ⟨hm1, hm2⟩
      have hcc1 : ch1.message_id_counter = ch.message_id_counter := hcc
      rcases hkeysNew m hm2 with rfl | hm2'
      · have := hi.idBound t1 c1 ch1 v h1 hm1
        rw [hcc1] at this
        omega
      · obtain ⟨rfl, rfl⟩ := hb
        exact hi.interDisj t1 c1 ch1 t0 c0 ch m h1 hbase hcc1
          (fun hh => ha ⟨hh.1.symm, hh.2.symm⟩) ⟨hm1, hm2'⟩
    · rw [if_neg ha] at h1
      rw [if_neg hb] at h2
      exact hi.interDisj t1 c1 ch1 t2 c2 ch2 m h1 h2 hcc hne

/-- Installing a freshly cross-referenced endpoint pair with a fresh
counter cell preserves the invariant. -/
theorem inv_create_channel (k : Kernel) (toTid : Nat)
    (fromTask toTask fromT' toT' : Task)
    (hi : Inv k)
    (hne : k.currentTid ≠ toTid)
    (h0 : k.tasks.find? k.currentTid = some fromTask)
    (h2 : k.tasks.find? toTid = some toTask)
    (hfrom : fromT'.channels =
      fromTask.channels.insert (nextChannelId fromTask.channels)
        { other_task := toTid,
          other_channel_id := nextChannelId toTask.channels,
          message_id_counter := k.counters.length,
          write_regions := [], read_regions := [] })
    (hto : toT'.channels =
      toTask.channels.insert (nextChannelId toTask.channels)
        { other_task := k.currentTid,
          other_channel_id := nextChannelId fromTask.channels,
          message_id_counter := k.counters.length,
          write_regions := [], read_regions := [] }) :
    Inv { (k.updateTask k.currentTid fromT').updateTask toTid toT' with
      counters := k.counters ++ [0] } := by
  set cur := k.currentTid with hcur
  set fcid := nextChannelId fromTask.channels with hfcid
  set tcid := nextChannelId toTask.channels with htcid
  set fChan : UserspaceChannel :=
    { other_task := toTid, other_channel_id := tcid,
      message_id_counter := k.counters.length,
      write_regions := [], read_regions := [] } with hfChan
  set tChan : UserspaceChannel :=
    { other_task := cur, other_channel_id := fcid,
      message_id_counter := k.counters.length,
      write_regions := [], read_regions := [] } with htChan
  set K : Kernel := { (k.updateTask cur fromT').updateTask toTid toT' with
    counters := k.counters ++ [0] } with hKdef
  have hfnone : chanAt k cur fcid = none := by
    simp [chanAt, h0, hfcid, find?_nextChannelId]
  have htnone : chanAt k toTid tcid = none := by
    simp [chanAt, h2, htcid, find?_nextChannelId]
  have hcat : ∀ t c, chanAt K t c =
      if toTid = t then
        (if tcid = c then some tChan else chanAt k t c)
      else if cur = t then
        (if fcid = c then some fChan else chanAt k t c)
      else chanAt k t c := by
    intro t c
    have hstep : chanAt K t c =
        chanAt ((k.updateTask cur fromT').updateTask toTid toT') t c := rfl
    rw [hstep, chanAt_updateTask]
    by_cases ht : toTid = t
    · subst ht
      rw [if_pos rfl, if_pos rfl, hto, Mmap.find?_insert]
      by_cases hc : tcid = c
      · simp [hc]
      · rw [if_neg hc, if_neg hc]
        simp [chanAt, h2]
    · rw [if_neg ht, if_neg ht, chanAt_updateTask]
      by_cases ht2 : cur = t
      · subst ht2
        rw [if_pos rfl, if_pos rfl, hfrom, Mmap.find?_insert]
        by_cases hc : fcid = c
        · simp [hc]
        · rw [if_neg hc, if_neg hc]
          simp [chanAt, h0]
      · rw [if_neg ht2, if_neg ht2]
  have hKlen : K.counters.length = k.counters.length + 1 := by
    show (k.counters ++ [0]).length = _
    simp
  have hcvOld : ∀ c, c < k.counters.length → counterVal K c = counterVal k c := by
    intro c hc
    show (k.counters ++ [0]).getD c 0 = k.counters.getD c 0
    exact getD_append_left k.counters [0] c hc
  have hnewKeys : chanKeys fChan = [] ∧ chanKeys tChan = [] := by
    constructor <;> rfl
  -- a slot of K is the new from-side, the new to-side, or an old slot
  have hsplit : ∀ t c ch, chanAt K t c = some ch →
      (t = toTid ∧ c = tcid ∧ ch = tChan) ∨
      (t = cur ∧ c = fcid ∧ ch = fChan) ∨
      (chanAt k t c = some ch) := by
    intro t c ch h
    rw [hcat] at h
    by_cases ht : toTid = t
    · rw [if_pos ht] at h
      by_cases hc : tcid = c
      · rw [if_pos hc] at h
        cases h
        exact Or.inl ⟨ht.symm, hc.symm, rfl⟩
      · rw [if_neg hc] at h
        exact Or.inr (Or.inr h)
    · rw [if_neg ht] at h
      by_cases ht2 : cur = t
      · rw [if_pos ht2] at h
        by_cases hc : fcid = c
        · rw [if_pos hc] at h
          cases h
          exact Or.inr (Or.inl ⟨ht2.symm, hc.symm, rfl⟩)
        · rw [if_neg hc] at h
          exact Or.inr (Or.inr h)
      · rw [if_neg ht2] at h
        exact Or.inr (Or.inr h)
  have holdCtr : ∀ t c ch, chanAt k t c = some ch →
      ch.message_id_counter < k.counters.length := hi.ctrBound
  -- old slots keep their channel in K
  have hlift : ∀ t c ch, chanAt k t c = some ch → chanAt K t c = some ch := by
    intro t c ch h
    rw [hcat]
    by_cases ht : toTid = t
    · subst ht
      rw [if_pos rfl]
      by_cases hc : tcid = c
      · subst hc
        rw [htnone] at h
        cases h
      · rw [if_neg hc]
        exact h
    · rw [if_neg ht]
      by_cases ht2 : cur = t
      · subst ht2
        rw [if_pos rfl]
        by_cases hc : fcid = c
        · subst hc
          rw [hfnone] at h
          cases h
        · rw [if_neg hc]
          exact h
      · rw [if_neg ht2]
        exact h
  have hfctr : fChan.message_id_counter = k.counters.length := rfl
  have htctr : tChan.message_id_counter = k.counters.length := rfl
  have hfot : fChan.other_task = toTid := rfl
  have hfoc : fChan.other_channel_id = tcid := rfl
  have htot : tChan.other_task = cur := rfl
  have htoc : tChan.other_channel_id = fcid := rfl
  constructor
  · intro t c ch h
    rcases hsplit t c ch h with ⟨ht, hc, hch⟩ | ⟨ht, hc, hch⟩ | hold
    · subst hch
      rw [hKlen, htctr]
      omega
    · subst hch
      rw [hKlen, hfctr]
      omega
    · rw [hKlen]
      have := holdCtr t c ch hold
      omega
  · intro t c ch m h hm
    rcases hsplit t c ch h with ⟨ht, hc, hch⟩ | ⟨ht, hc, hch⟩ | hold
    · subst hch
      rw [hnewKeys.2] at hm
      cases hm
    · subst hch
      rw [hnewKeys.1] at hm
      cases hm
    · have hb := hi.idBound t c ch m hold hm
      rw [hcvOld ch.message_id_counter (holdCtr t c ch hold)]
      exact hb
  · intro t c ch h
    rcases hsplit t c ch h with ⟨ht, hc, hch⟩ | ⟨ht, hc, hch⟩ | hold
    · subst hch
      rw [htot, ht]
      exact hne
    · subst hch
      rw [hfot, ht]
      exact fun hh => hne hh.symm
    · exact hi.noSelf t c ch hold
  · intro t c ch h
    rcases hsplit t c ch h with ⟨ht, hc, hch⟩ | ⟨ht, hc, hch⟩ | hold
    · subst hch
      refine ⟨fChan, ?_, hfctr.trans htctr.symm, ?_, ?_⟩
      · rw [htot, htoc, hcat]
        rw [if_neg (show ¬(toTid = cur) from fun hh => hne hh.symm),
          if_pos rfl, if_pos rfl]
      · rw [hfot, ht]
      · rw [hfoc, hc]
    · subst hch
      refine ⟨tChan, ?_, htctr.trans hfctr.symm, ?_, ?_⟩
      · rw [hfot, hfoc, hcat]
        rw [if_pos rfl, if_pos rfl]
      · rw [htot, ht]
      · rw [htoc, hc]
    · obtain ⟨chP, hP, hP1, hP2, hP3⟩ := hi.coherent t c ch hold
      exact ⟨chP, hlift _ _ _ hP, hP1, hP2, hP3⟩
  · intro t1 c1 ch1 t2 c2 ch2 h1 h2' hcc hnepair
    rcases hsplit t1 c1 ch1 h1 with ⟨ht1, hc1, hch1⟩ | ⟨ht1, hc1, hch1⟩ | hold1
    · rcases hsplit t2 c2 ch2 h2' with ⟨ht2, hc2, hch2⟩ | ⟨ht2, hc2, hch2⟩ | hold2
      · exact absurd ⟨ht1.trans ht2.symm, hc1.trans hc2.symm⟩ hnepair
      · subst hch1
        exact ⟨htot.trans ht2.symm, htoc.trans hc2.symm⟩
      · subst hch1
        have := holdCtr t2 c2 ch2 hold2
        rw [← hcc, htctr] at this
        omega
    · rcases hsplit t2 c2 ch2 h2' with ⟨ht2, hc2, hch2⟩ | ⟨ht2, hc2, hch2⟩ | hold2
      · subst hch1
        exact ⟨hfot.trans ht2.symm, hfoc.trans hc2.symm⟩
      · exact absurd ⟨ht1.trans ht2.symm, hc1.trans hc2.symm⟩ hnepair
      · subst hch1
        have := holdCtr t2 c2 ch2 hold2
        rw [← hcc, hfctr] at this
        omega
    · rcases hsplit t2 c2 ch2 h2' with ⟨ht2, hc2, hch2⟩ | ⟨ht2, hc2, hch2⟩ | hold2
      · subst hch2
        have := holdCtr t1 c1 ch1 hold1
        rw [hcc, htctr] at this
        omega
      · subst hch2
        have := holdCtr t1 c1 ch1 hold1
        rw [hcc, hfctr] at this
        omega
      · exact hi.pairUnique t1 c1 ch1 t2 c2 ch2 hold1 hold2 hcc hnepair
  · intro t c ch m h
    rcases hsplit t c ch h with ⟨ht, hc, hch⟩ | ⟨ht, hc, hch⟩ | hold
    · subst hch
      rintro ⟨hw, -⟩
      cases hw
    · subst hch
      rintro ⟨hw, -⟩
      cases hw
    · exact hi.intraDisj t c ch m hold
  · intro t1 c1 ch1 t2 c2 ch2 m h1 h2' hcc hnepair
    rcases hsplit t1 c1 ch1 h1 with ⟨ht1, hc1, hch1⟩ | ⟨ht1, hc1, hch1⟩ | hold1
    · subst hch1
      rintro ⟨hm1, -⟩
      rw [hnewKeys.2] at hm1
      cases hm1
    · subst hch1
      rintro ⟨hm1, -⟩
      rw [hnewKeys.1] at hm1
      cases hm1
    · rcases hsplit t2 c2 ch2 h2' with ⟨ht2, hc2, hch2⟩ | ⟨ht2, hc2, hch2⟩ | hold2
      · subst hch2
        rintro ⟨-, hm2⟩
        rw [hnewKeys.2] at hm2
        cases hm2
      · subst hch2
        rintro ⟨-, hm2⟩
        rw [hnewKeys.1] at hm2
        cases hm2
      · exact hi.interDisj t1 c1 ch1 t2 c2 ch2 m hold1 hold2 hcc hnepair

theorem Mmap.erase_erase_same {α : Type} (m : Mmap α) (k : Nat) :
    Mmap.erase (Mmap.erase m k) k = Mmap.erase m k := by
  induction m with
  | nil => rfl
  | cons p rest ih =>
    by_cases hp : p.1 = k
    · simp [Mmap.erase, hp, ih]
    · simp [Mmap.erase, hp, ih]

theorem Mmap.insert_insert_same {α : Type} (m : Mmap α) (k : Nat) (v1 v2 : α) :
    Mmap.insert (Mmap.insert m k v1) k v2 = Mmap.insert m k v2 := by
  simp [Mmap.insert, Mmap.erase, Mmap.erase_erase_same]

theorem updateTask_updateTask (k : Kernel) (t : Nat) (a b : Task) :
    (k.updateTask t a).updateTask t b = k.updateTask t b := by
  simp [Kernel.updateTask, Mmap.insert_insert_same]

/-- The kernel state after `request_channel` satisfies the invariant. -/
theorem inv_requestChannel (k : Kernel) (toTid : Nat) (hi : Inv k) :
    Inv (requestChannel k toTid).state := by
  cases hc : k.tasks.find? k.currentTid with
  | none => simpa [requestChannel, hc, Outcome.state] using hi
  | some fromTask =>
    by_cases hself : k.currentTid = toTid
    · have hc' : k.tasks.find? toTid = some fromTask := hself ▸ hc
      simpa [requestChannel, hc', hself, Outcome.state] using hi
    · cases ht : k.tasks.find? toTid with
      | none => simpa [requestChannel, hc, hself, ht, Outcome.state] using hi
      | some toTask =>
        cases hd : toTask.state.isDead with
        | true => simpa [requestChannel, hc, hself, ht, hd, Outcome.state] using hi
        | false =>
          cases hp : toTask.promiscuous with
          | false =>
            simpa [requestChannel, hc, hself, ht, hd, hp, Outcome.state] using hi
          | true =>
            have hred : (requestChannel k toTid).state =
                (k.updateTask toTid
                  { toTask with
                    incoming_channel_request :=
                      insertSet toTask.incoming_channel_request k.currentTid,
                    message_queue := toTask.message_queue ++
                      [(Sender.kernel,
                        Message.notif (.ChannelRequest k.currentTid))] }).updateTask
                  k.currentTid { fromTask with state := TaskState.Blocked } := by
              simp only [requestChannel, hc, hself, if_neg hself, ht, hd,
                Bool.false_eq_true, if_false, hp, Bool.not_true, Outcome.state]
            rw [hred]
            have h1 := inv_update_mm k toTid toTask
              { toTask with
                incoming_channel_request :=
                  insertSet toTask.incoming_channel_request k.currentTid,
                message_queue := toTask.message_queue ++
                  [(Sender.kernel,
                    Message.notif (.ChannelRequest k.currentTid))] } hi ht rfl
            refine inv_update_mm _ k.currentTid fromTask
              { fromTask with state := TaskState.Blocked } h1 ?_ rfl
            simp [Kernel.updateTask, Mmap.find?_insert,
              (show ¬(toTid = k.currentTid) from fun hh => hself hh.symm), hc]

/-- The kernel state after `create_channel` satisfies the invariant. -/
theorem inv_createChannel (k : Kernel) (toTid : Nat) (hi : Inv k) :
    Inv (createChannel k toTid).state := by
  cases hc : k.tasks.find? k.currentTid with
  | none => simpa [createChannel, hc, Outcome.state] using hi
  | some fromTask =>
    by_cases hself : k.currentTid = toTid
    · have hc' : k.tasks.find? toTid = some fromTask := hself ▸ hc
      simpa [createChannel, hc', hself, Outcome.state] using hi
    · cases ht : k.tasks.find? toTid with
      | none => simpa [createChannel, hc, hself, ht, Outcome.state] using hi
      | some toTask =>
        cases hd : toTask.state.isDead with
        | true => simpa [createChannel, hc, hself, ht, hd, Outcome.state] using hi
        | false =>
          have hred : (createChannel k toTid).state =
              { (k.updateTask k.currentTid
                  { fromTask with
                    incoming_channel_request :=
                      (removeSet fromTask.incoming_channel_request toTid).2,
                    channels :=
                      fromTask.channels.insert (nextChannelId fromTask.channels)
                        { other_task := toTid,
                          other_channel_id := nextChannelId toTask.channels,
                          message_id_counter := k.counters.length,
                          write_regions := [], read_regions := [] } }).updateTask
                toTid
                { (if (removeSet fromTask.incoming_channel_request toTid).1 then
                    { toTask with state := TaskState.Running }
                  else toTask) with
                  channels :=
                    toTask.channels.insert (nextChannelId toTask.channels)
                      { other_task := k.currentTid,
                        other_channel_id := nextChannelId fromTask.channels,
                        message_id_counter := k.counters.length,
                        write_regions := [], read_regions := [] },
                  message_queue := (Sender.kernel,
                    Message.notif
                      (.ChannelOpened (nextChannelId toTask.channels))) ::
                    (if (removeSet fromTask.incoming_channel_request toTid).1 then
                      { toTask with state := TaskState.Running }
                    else toTask).message_queue } with
                counters := k.counters ++ [0] } := by
            simp only [createChannel, hc, hself, if_neg hself, ht, hd,
              Bool.false_eq_true, if_false, Outcome.state]
            cases (removeSet fromTask.incoming_channel_request toTid).1 <;> rfl
          rw [hred]
          exact inv_create_channel k toTid fromTask toTask _ _ hi hself hc ht
            rfl (by cases (removeSet fromTask.incoming_channel_request toTid).1 <;> rfl)

/-- The kernel state after `create_message` satisfies the invariant. -/
theorem inv_createMessage (k : Kernel) (cid size : Nat) (hi : Inv k) :
    Inv (createMessage k cid size).state := by
  cases hc : k.tasks.find? k.currentTid with
  | none => simpa [createMessage, hc, Outcome.state] using hi
  | some task =>
    cases hch : task.channels.find? cid with
    | none => simpa [createMessage, hc, hch, Outcome.state] using hi
    | some channel =>
      have hred : (createMessage k cid size).state =
          { k.updateTask k.currentTid
              { task with
                channels := task.channels.insert cid
                  { channel with
                    write_regions := channel.write_regions.insert
                      (counterVal k channel.message_id_counter)
                      ⟨task.memory_manager.nextFree,
                        task.memory_manager.nextFree +
                          roundUpToNext size 4096 / 4096 * 4096⟩ },
                memory_manager :=
                  { regions := task.memory_manager.regions.insert
                      task.memory_manager.nextFree
                      ⟨roundUpToNext size 4096 / 4096 * 4096, true⟩,
                    nextFree := task.memory_manager.nextFree +
                      roundUpToNext size 4096 / 4096 * 4096 } } with
            counters := k.counters.set channel.message_id_counter
              (counterVal k channel.message_id_counter + 1) } := by
        simp only [createMessage, hc, hch, nextMessageId,
          MemoryManager.allocSharedRegion, Kernel.updateTask, Outcome.state,
          counterVal]
      rw [hred]
      exact inv_create_message k k.currentTid cid task _ channel _ hi hc hch rfl

/-- The kernel state after `retire_message` satisfies the invariant. -/
theorem inv_retireMessage (k : Kernel) (cid mid : Nat) (hi : Inv k) :
    Inv (retireMessage k cid mid).state := by
  cases hc : k.tasks.find? k.currentTid with
  | none => simpa [retireMessage, hc, Outcome.state] using hi
  | some task =>
    cases hch : task.channels.find? cid with
    | none => simpa [retireMessage, hc, hch, Outcome.state] using hi
    | some channel =>
      cases hr : channel.read_regions.find? mid with
      | none => simpa [retireMessage, hc, hch, hr, Outcome.state] using hi
      | some region =>
        have hred : (retireMessage k cid mid).state =
            k.updateTask k.currentTid
              { task with
                channels := task.channels.insert cid
                  { channel with
                    read_regions := channel.read_regions.erase mid },
                memory_manager :=
                  { regions :=
                      task.memory_manager.regions.erase region.1.start,
                    nextFree := task.memory_manager.nextFree } } := by
          simp only [retireMessage, hc, hch, hr,
            MemoryManager.deallocRegion, Kernel.updateTask, Outcome.state]
        rw [hred]
        refine inv_update_channel_shrink k k.currentTid cid task _ channel
          { channel with read_regions := channel.read_regions.erase mid }
          hi hc hch rfl rfl rfl (fun m hm => hm) ?_ rfl
        intro m hm
        exact ((Mmap.mem_keys_erase _ _ _).mp hm).1

/-- The kernel state after `send_message` satisfies the invariant. -/
theorem inv_sendMessage (k : Kernel) (cid mid len : Nat) (hi : Inv k) :
    Inv (sendMessage k cid mid len).state := by
  cases hc : k.tasks.find? k.currentTid with
  | none => simpa [sendMessage, hc, Outcome.state] using hi
  | some task =>
    cases hch : task.channels.find? cid with
    | none => simpa [sendMessage, hc, hch, Outcome.state] using hi
    | some channel =>
      cases hw : channel.write_regions.find? mid with
      | none => simpa [sendMessage, hc, hch, hw, Outcome.state] using hi
      | some range =>
        have hbase : chanAt k k.currentTid cid = some channel := by
          simp [chanAt, hc, hch]
        have hmidmem : mid ∈ chanKeys channel :=
          List.mem_append.mpr (Or.inl ((Mmap.mem_keys_iff_find? _ _).mpr
            (by simp [hw])))
        have hmidW : mid ∈ channel.write_regions.keys :=
          (Mmap.mem_keys_iff_find? _ _).mpr (by simp [hw])
        -- the sender task after the outbound entry is removed, and with the
        -- detached region gone from its memory manager
        have hshrink1 : Inv (k.updateTask k.currentTid
            { task with
              channels := task.channels.insert cid
                { channel with
                  write_regions := channel.write_regions.erase mid } }) := by
          refine inv_update_channel_shrink k k.currentTid cid task _ channel
            { channel with write_regions := channel.write_regions.erase mid }
            hi hc hch rfl rfl rfl ?_ (fun m hm => hm) rfl
          intro m hm
          exact ((Mmap.mem_keys_erase _ _ _).mp hm).1
        have hshrink2 : Inv (k.updateTask k.currentTid
            { task with
              channels := task.channels.insert cid
                { channel with
                  write_regions := channel.write_regions.erase mid },
              memory_manager :=
                { regions := task.memory_manager.regions.erase range.start,
                  nextFree := task.memory_manager.nextFree } }) := by
          refine inv_update_channel_shrink k k.currentTid cid task _ channel
            { channel with write_regions := channel.write_regions.erase mid }
            hi hc hch rfl rfl rfl ?_ (fun m hm => hm) rfl
          intro m hm
          exact ((Mmap.mem_keys_erase _ _ _).mp hm).1
        by_cases hlen : range.stop - range.start < len
        · have hred : (sendMessage k cid mid len).state =
              k.updateTask k.currentTid
                { task with
                  channels := task.channels.insert cid
                    { channel with
                      write_regions := channel.write_regions.erase mid } } := by
            simp only [sendMessage, hc, hch, hw, if_pos hlen, Outcome.state]
          rw [hred]
          exact hshrink1
        · cases hdl : task.memory_manager.regions.find? range.start with
          | none =>
            have hred : (sendMessage k cid mid len).state =
                (k.updateTask k.currentTid
                  { task with
                    channels := task.channels.insert cid
                      { channel with
                        write_regions := channel.write_regions.erase mid } }).updateTask
                  k.currentTid
                  { task with
                    channels := task.channels.insert cid
                      { channel with
                        write_regions := channel.write_regions.erase mid },
                    memory_manager :=
                      { regions := task.memory_manager.regions.erase range.start,
                        nextFree := task.memory_manager.nextFree } } := by
              simp only [sendMessage, hc, hch, hw, if_neg hlen,
                MemoryManager.deallocRegion, hdl, Kernel.updateTask,
                Outcome.state]
            rw [hred, updateTask_updateTask]
            exact hshrink2
          | some backing =>
            cases hsh : backing.shared with
            | false =>
              have hred : (sendMessage k cid mid len).state =
                  (k.updateTask k.currentTid
                    { task with
                      channels := task.channels.insert cid
                        { channel with
                          write_regions := channel.write_regions.erase mid } }).updateTask
                    k.currentTid
                    { task with
                      channels := task.channels.insert cid
                        { channel with
                          write_regions := channel.write_regions.erase mid },
                      memory_manager :=
                        { regions :=
                            task.memory_manager.regions.erase range.start,
                          nextFree := task.memory_manager.nextFree } } := by
                simp only [sendMessage, hc, hch, hw, if_neg hlen,
                  MemoryManager.deallocRegion, hdl, hsh, Bool.not_false,
                  if_true, Kernel.updateTask, Outcome.state]
              rw [hred, updateTask_updateTask]
              exact hshrink2
            | true =>
              have hu : channel.other_task ≠ k.currentTid :=
                hi.noSelf k.currentTid cid channel hbase
              have hu' : ¬(k.currentTid = channel.other_task) :=
                fun hh => hu hh.symm
              cases ho : k.tasks.find? channel.other_task with
              | none =>
                have hred : (sendMessage k cid mid len).state =
                    (k.updateTask k.currentTid
                      { task with
                        channels := task.channels.insert cid
                          { channel with
                            write_regions :=
                              channel.write_regions.erase mid } }).updateTask
                      k.currentTid
                      { task with
                        channels := task.channels.insert cid
                          { channel with
                            write_regions := channel.write_regions.erase mid },
                        memory_manager :=
                          { regions :=
                              task.memory_manager.regions.erase range.start,
                            nextFree := task.memory_manager.nextFree } } := by
                  simp only [sendMessage, hc, hch, hw, if_neg hlen,
                    MemoryManager.deallocRegion, hdl, hsh, Bool.not_true,
                    Bool.false_eq_true, if_false, Kernel.updateTask,
                    Mmap.find?_insert, if_neg hu', ho, Outcome.state]
                rw [hred, updateTask_updateTask]
                exact hshrink2
              | some other =>
                have hfindo : ((k.updateTask k.currentTid
                    { task with
                      channels := task.channels.insert cid
                        { channel with
                          write_regions := channel.write_regions.erase mid },
                      memory_manager :=
                        { regions :=
                            task.memory_manager.regions.erase range.start,
                          nextFree :=
                            task.memory_manager.nextFree } }).tasks.find?
                    channel.other_task) = some other := by
                  simp [Kernel.updateTask, Mmap.find?_insert, hu', ho]
                cases hoc : other.channels.find? channel.other_channel_id with
                | none =>
                  have hred : (sendMessage k cid mid len).state =
                      ((k.updateTask k.currentTid
                        { task with
                          channels := task.channels.insert cid
                            { channel with
                              write_regions :=
                                channel.write_regions.erase mid } }).updateTask
                        k.currentTid
                        { task with
                          channels := task.channels.insert cid
                            { channel with
                              write_regions :=
                                channel.write_regions.erase mid },
                          memory_manager :=
                            { regions :=
                                task.memory_manager.regions.erase range.start,
                              nextFree :=
                                task.memory_manager.nextFree } }).updateTask
                        channel.other_task
                        { other with
                          memory_manager :=
                            { regions :=
                                other.memory_manager.regions.insert
                                  other.memory_manager.nextFree backing,
                              nextFree := other.memory_manager.nextFree +
                                backing.size } } := by
                    simp only [sendMessage, hc, hch, hw, if_neg hlen,
                      MemoryManager.deallocRegion, hdl, hsh, Bool.not_true,
                      Bool.false_eq_true, if_false, Kernel.updateTask,
                      Mmap.find?_insert, if_neg hu', ho,
                      MemoryManager.applySharedRegion, hoc, Outcome.state]
                  rw [hred, updateTask_updateTask]
                  exact inv_update_mm _ channel.other_task other _ hshrink2
                    hfindo rfl
                | some och =>
                  have hkk : chanAt k channel.other_task
                      channel.other_channel_id = some och := by
                    simp [chanAt, ho, hoc]
                  obtain ⟨chP, hPch, hPctr, -, -⟩ :=
                    hi.coherent k.currentTid cid channel hbase
                  have hchPeq : chP = och := by
                    rw [hkk] at hPch
                    cases hPch
                    rfl
                  have hctreq : och.message_id_counter =
                      channel.message_id_counter := by
                    rw [← hchPeq, hPctr]
                  have hmidlt0 : mid < counterVal k channel.message_id_counter :=
                    hi.idBound k.currentTid cid channel mid hbase hmidmem
                  have hcat2 : ∀ t c, chanAt (k.updateTask k.currentTid
                      { task with
                        channels := task.channels.insert cid
                          { channel with
                            write_regions := channel.write_regions.erase mid },
                        memory_manager :=
                          { regions :=
                              task.memory_manager.regions.erase range.start,
                            nextFree := task.memory_manager.nextFree } }) t c =
                      if k.currentTid = t ∧ cid = c then
                        some { channel with
                          write_regions := channel.write_regions.erase mid }
                      else chanAt k t c := by
                    intro t c
                    rw [chanAt_updateTask]
                    by_cases ht : k.currentTid = t
                    · subst ht
                      rw [if_pos rfl, Mmap.find?_insert]
                      by_cases hcc2 : cid = c
                      · simp [hcc2]
                      · simp [hcc2, chanAt, hc]
                    · rw [if_neg ht, if_neg (fun hh => ht hh.1)]
                  have hmidout : ∀ t c chX, chanAt (k.updateTask k.currentTid
                      { task with
                        channels := task.channels.insert cid
                          { channel with
                            write_regions := channel.write_regions.erase mid },
                        memory_manager :=
                          { regions :=
                              task.memory_manager.regions.erase range.start,
                            nextFree := task.memory_manager.nextFree } }) t c =
                        some chX →
                      chX.message_id_counter = och.message_id_counter →
                      mid ∉ chanKeys chX := by
                    intro t c chX hX hXctr hmem
                    rw [hcat2] at hX
                    by_cases hAt : k.currentTid = t ∧ cid = c
                    · rw [if_pos hAt] at hX
                      cases hX
                      rcases List.mem_append.mp hmem with hmem | hmem
                      · exact absurd ((Mmap.mem_keys_erase _ _ _).mp hmem).2 (by simp)
                      · exact hi.intraDisj k.currentTid cid channel mid hbase
                          ⟨hmidW, hmem⟩
                    · rw [if_neg hAt] at hX
                      have hXctr' : channel.message_id_counter =
                          chX.message_id_counter := by
                        rw [hXctr, hctreq]
                      obtain ⟨hot, hoc2⟩ := hi.pairUnique k.currentTid cid
                        channel t c chX hbase hX hXctr' hAt
                      have hXoch : chX = och := by
                        have : chanAt k t c = some och := by
                          rw [← hot, ← hoc2]
                          exact hkk
                        rw [this] at hX
                        cases hX
                        rfl
                      subst hXoch
                      have hnecur : ¬(k.currentTid = channel.other_task ∧
                          cid = channel.other_channel_id) :=
                        fun hh => hu hh.1.symm
                      exact hi.interDisj k.currentTid cid channel
                        channel.other_task channel.other_channel_id chX mid
                        hbase hkk (by rw [hctreq]) hnecur ⟨hmidmem, hmem⟩
                  have hred : (sendMessage k cid mid len).state =
                      ((k.updateTask k.currentTid
                        { task with
                          channels := task.channels.insert cid
                            { channel with
                              write_regions :=
                                channel.write_regions.erase mid } }).updateTask
                        k.currentTid
                        { task with
                          channels := task.channels.insert cid
                            { channel with
                              write_regions :=
                                channel.write_regions.erase mid },
                          memory_manager :=
                            { regions :=
                                task.memory_manager.regions.erase range.start,
                              nextFree :=
                                task.memory_manager.nextFree } }).updateTask
                        channel.other_task
                        { other with
                          channels := other.channels.insert
                            channel.other_channel_id
                            { och with
                              read_regions := och.read_regions.insert mid
                                (⟨other.memory_manager.nextFree,
                                  other.memory_manager.nextFree + backing.size⟩,
                                  len) },
                          memory_manager :=
                            { regions :=
                                other.memory_manager.regions.insert
                                  other.memory_manager.nextFree backing,
                              nextFree := other.memory_manager.nextFree +
                                backing.size } } := by
                    simp only [sendMessage, hc, hch, hw, if_neg hlen,
                      MemoryManager.deallocRegion, hdl, hsh, Bool.not_true,
                      Bool.false_eq_true, if_false, Kernel.updateTask,
                      Mmap.find?_insert, if_neg hu', ho,
                      MemoryManager.applySharedRegion, hoc, Outcome.state]
                  rw [hred, updateTask_updateTask]
                  refine inv_extend_read _ channel.other_task
                    channel.other_channel_id other _ och mid
                    (⟨other.memory_manager.nextFree,
                      other.memory_manager.nextFree + backing.size⟩, len)
                    hshrink2 hfindo hoc ?_ hmidout rfl
                  show mid < counterVal _ och.message_id_counter
                  rw [hctreq]
                  exact hmidlt0

/-- Every step preserves the invariant. -/
theorem inv_step (k : Kernel) (op : Op) (hi : Inv k) : Inv (step k op) := by
  cases op with
  | switchTo tid =>
    show Inv (if (k.tasks.find? tid).isSome then
      { k with currentTid := tid } else k)
    by_cases h : (k.tasks.find? tid).isSome
    · rw [if_pos h]
      exact inv_congr k _ rfl (fun t c => rfl) hi
    · rw [if_neg h]
      exact hi
  | request toTid => exact inv_requestChannel k toTid hi
  | create toTid => exact inv_createChannel k toTid hi
  | createMsg cid size => exact inv_createMessage k cid size hi
  | send cid mid len => exact inv_sendMessage k cid mid len hi
  | read cid =>
    have : step k (.read cid) = (readMessage k cid).state := rfl
    rw [this, readMessage_state]
    exact hi
  | retire cid mid => exact inv_retireMessage k cid mid hi

/-- Every run from an invariant state ends in an invariant state. -/
theorem inv_run (k : Kernel) (ops : List Op) (hi : Inv k) : Inv (run k ops) := by
  induction ops generalizing k with
  | nil => exact hi
  | cons op ops ih => exact ih (step k op) (inv_step k op hi)

theorem requestChannel_state_counters (k : Kernel) (toTid : Nat) :
    (requestChannel k toTid).state.counters = k.counters := by
  cases hc : k.tasks.find? k.currentTid with
  | none => simp [requestChannel, hc, Outcome.state]
  | some fromTask =>
    by_cases hself : k.currentTid = toTid
    · have hc' : k.tasks.find? toTid = some fromTask := hself ▸ hc
      simp [requestChannel, hc', hself, Outcome.state]
    · cases ht : k.tasks.find? toTid with
      | none => simp [requestChannel, hc, hself, ht, Outcome.state]
      | some toTask =>
        cases hd : toTask.state.isDead <;>
          cases hp : toTask.promiscuous <;>
            simp [requestChannel, hc, hself, ht, hd, hp, Outcome.state,
              Kernel.updateTask]

theorem retireMessage_state_counters (k : Kernel) (cid mid : Nat) :
    (retireMessage k cid mid).state.counters = k.counters := by
  cases hc : k.tasks.find? k.currentTid with
  | none => simp [retireMessage, hc, Outcome.state]
  | some task =>
    cases hch : task.channels.find? cid with
    | none => simp [retireMessage, hc, hch, Outcome.state]
    | some channel =>
      cases hr : channel.read_regions.find? mid <;>
        simp [retireMessage, hc, hch, hr, Outcome.state, Kernel.updateTask,
          MemoryManager.deallocRegion]

theorem sendMessage_state_counters (k : Kernel) (cid mid len : Nat) :
    (sendMessage k cid mid len).state.counters = k.counters := by
  cases hc : k.tasks.find? k.currentTid with
  | none => simp [sendMessage, hc, Outcome.state]
  | some task =>
    cases hch : task.channels.find? cid with
    | none => simp [sendMessage, hc, hch, Outcome.state]
    | some channel =>
      cases hw : channel.write_regions.find? mid with
      | none => simp [sendMessage, hc, hch, hw, Outcome.state]
      | some range =>
        by_cases hlen : range.stop - range.start < len
        · simp [sendMessage, hc, hch, hw, hlen, Outcome.state,
            Kernel.updateTask]
        · cases hdl : task.memory_manager.regions.find? range.start with
          | none =>
            simp [sendMessage, hc, hch, hw, hlen,
              MemoryManager.deallocRegion, hdl, Outcome.state,
              Kernel.updateTask]
          | some backing =>
            cases hsh : backing.shared with
            | false =>
              simp [sendMessage, hc, hch, hw, hlen,
                MemoryManager.deallocRegion, hdl, hsh, Outcome.state,
                Kernel.updateTask]
            | true =>
              simp only [sendMessage, hc, hch, hw, if_neg hlen,
                MemoryManager.deallocRegion, hdl, hsh, Bool.not_true,
                Bool.false_eq_true, if_false, Kernel.updateTask,
                Mmap.find?_insert, MemoryManager.applySharedRegion]
              by_cases h7 : k.currentTid = channel.other_task
              · simp only [if_pos h7]
                by_cases h8 : cid = channel.other_channel_id
                · simp [Mmap.find?_insert, h8, Outcome.state,
                    Kernel.updateTask]
                · simp only [Mmap.find?_insert, if_neg h8]
                  cases h9 : task.channels.find? channel.other_channel_id <;>
                    simp [h9, Outcome.state, Kernel.updateTask]
              · simp only [if_neg h7]
                cases h9 : k.tasks.find? channel.other_task with
                | none => simp [h9, Outcome.state, Kernel.updateTask]
                | some other =>
                  cases h10 :
                      other.channels.find? channel.other_channel_id <;>
                    simp [h9, h10, Outcome.state, Kernel.updateTask]

theorem createChannel_counters_le (k : Kernel) (toTid c : Nat) :
    counterVal k c ≤ counterVal (createChannel k toTid).state c := by
  cases hc : k.tasks.find? k.currentTid with
  | none => simp [createChannel, hc, Outcome.state, counterVal]
  | some fromTask =>
    by_cases hself : k.currentTid = toTid
    · have hc' : k.tasks.find? toTid = some fromTask := hself ▸ hc
      simp [createChannel, hc', hself, Outcome.state, counterVal]
    · cases ht : k.tasks.find? toTid with
      | none => simp [createChannel, hc, hself, ht, Outcome.state, counterVal]
      | some toTask =>
        cases hd : toTask.state.isDead with
        | true =>
          simp [createChannel, hc, hself, ht, hd, Outcome.state, counterVal]
        | false =>
          have hred : (createChannel k toTid).state.counters =
              k.counters ++ [0] := by
            simp only [createChannel, hc, hself, if_neg hself, ht, hd,
              Bool.false_eq_true, if_false, Outcome.state]
          show k.counters.getD c 0 ≤
            (createChannel k toTid).state.counters.getD c 0
          rw [hred]
          exact getD_le_getD_append k.counters [0] c

theorem createMessage_counters_le (k : Kernel) (cid size c : Nat) :
    counterVal k c ≤ counterVal (createMessage k cid size).state c := by
  cases hc : k.tasks.find? k.currentTid with
  | none => simp [createMessage, hc, Outcome.state, counterVal]
  | some task =>
    cases hch : task.channels.find? cid with
    | none => simp [createMessage, hc, hch, Outcome.state, counterVal]
    | some channel =>
      have hred : (createMessage k cid size).state.counters =
          k.counters.set channel.message_id_counter
            (k.counters.getD channel.message_id_counter 0 + 1) := by
        simp only [createMessage, hc, hch, nextMessageId, Outcome.state]
      show k.counters.getD c 0 ≤
        (createMessage k cid size).state.counters.getD c 0
      rw [hred]
      exact getD_le_getD_set_incr k.counters channel.message_id_counter c

/-- Counter cells never decrease along a step. -/
theorem counters_step_le (k : Kernel) (op : Op) (c : Nat) :
    counterVal k c ≤ counterVal (step k op) c := by
  cases op with
  | switchTo tid =>
    show counterVal k c ≤ counterVal (if (k.tasks.find? tid).isSome then
      { k with currentTid := tid } else k) c
    by_cases h : (k.tasks.find? tid).isSome
    · rw [if_pos h]
      exact le_refl _
    · rw [if_neg h]
  | request toTid =>
    show counterVal k c ≤ counterVal (requestChannel k toTid).state c
    unfold counterVal
    rw [requestChannel_state_counters]
  | create toTid => exact createChannel_counters_le k toTid c
  | createMsg cid size => exact createMessage_counters_le k cid size c
  | send cid mid len =>
    show counterVal k c ≤ counterVal (sendMessage k cid mid len).state c
    unfold counterVal
    rw [sendMessage_state_counters]
  | read cid =>
    show counterVal k c ≤ counterVal (readMessage k cid).state c
    rw [readMessage_state]
  | retire cid mid =>
    show counterVal k c ≤ counterVal (retireMessage k cid mid).state c
    unfold counterVal
    rw [retireMessage_state_counters]

/-- An event hands out no id, or exactly the current value of one counter
cell, which (in invariant states) the step then bumps by one. -/
theorem opLog_nil_or (k : Kernel) (op : Op) :
    opLog k op = [] ∨
    ∃ c0, opLog k op = [(c0, counterVal k c0)] ∧
      (Inv k → counterVal (step k op) c0 = counterVal k c0 + 1) := by
  cases op with
  | switchTo tid => exact Or.inl rfl
  | request toTid => exact Or.inl rfl
  | create toTid => exact Or.inl rfl
  | send cid mid len => exact Or.inl rfl
  | read cid => exact Or.inl rfl
  | retire cid mid => exact Or.inl rfl
  | createMsg cid size =>
    cases hc : k.tasks.find? k.currentTid with
    | none => exact Or.inl (by simp [opLog, hc])
    | some task =>
      cases hch : task.channels.find? cid with
      | none => exact Or.inl (by simp [opLog, hc, hch])
      | some channel =>
        refine Or.inr ⟨channel.message_id_counter, ?_, ?_⟩
        · simp only [opLog, hc, hch, createMessage, nextMessageId,
            MemoryManager.allocSharedRegion, counterVal]
        · intro hi
          have hbase : chanAt k k.currentTid cid = some channel := by
            simp [chanAt, hc, hch]
          have hlt : channel.message_id_counter < k.counters.length :=
            hi.ctrBound k.currentTid cid channel hbase
          have hred : (step k (.createMsg cid size)).counters =
              k.counters.set channel.message_id_counter
                (k.counters.getD channel.message_id_counter 0 + 1) := by
            show (createMessage k cid size).state.counters = _
            simp only [createMessage, hc, hch, nextMessageId, Outcome.state]
          show (step k (.createMsg cid size)).counters.getD
            channel.message_id_counter 0 = _
          rw [hred]
          rw [getD_set_self k.counters channel.message_id_counter _ hlt]
          rfl

/-- Every id in a run's log is at least the value its counter cell had
when the run started. -/
theorem runLog_lb (k : Kernel) (ops : List Op) :
    ∀ p ∈ runLog k ops, counterVal k p.1 ≤ p.2 := by
  induction ops generalizing k with
  | nil =>
    intro p hp
    simp [runLog] at hp
  | cons op ops ih =>
    intro p hp
    have hp' : p ∈ opLog k op ++ runLog (step k op) ops := hp
    rcases List.mem_append.mp hp' with hp1 | hp2
    · rcases opLog_nil_or k op with hnil | ⟨c0, heq, -⟩
      · rw [hnil] at hp1
        cases hp1
      · rw [heq] at hp1
        rcases List.mem_singleton.mp hp1 with rfl
        exact le_refl _
    · exact le_trans (counters_step_le k op p.1) (ih (step k op) p hp2)

theorem idsFor_append (c : Nat) (a b : List (Nat × Nat)) :
    idsFor c (a ++ b) = idsFor c a ++ idsFor c b := by
  simp [idsFor, List.filter_append]

theorem mem_of_mem_idsFor (c x : Nat) (l : List (Nat × Nat))
    (h : x ∈ idsFor c l) : (c, x) ∈ l := by
  simp only [idsFor, List.mem_map, List.mem_filter] at h
  obtain ⟨p, ⟨hpl, hpc⟩, hpx⟩ := h
  have h1 : p.1 = c := by
    simpa using hpc
  have : p = (c, x) := by
    cases p
    simp_all
  rw [← this]
  exact hpl

/-- The ids one counter cell hands out along a run are strictly
increasing. -/
theorem runLog_sorted (k : Kernel) (ops : List Op) (hi : Inv k) (c : Nat) :
    List.Pairwise (· < ·) (idsFor c (runLog k ops)) := by
  induction ops generalizing k with
  | nil => simp [runLog, idsFor]
  | cons op ops ih =>
    have hstep : Inv (step k op) := inv_step k op hi
    have hsplit : runLog k (op :: ops) =
        opLog k op ++ runLog (step k op) ops := rfl
    rw [hsplit, idsFor_append]
    rcases opLog_nil_or k op with hnil | ⟨c0, heq, hbump⟩
    · rw [hnil]
      simpa [idsFor] using ih (step k op) hstep
    · rw [heq]
      by_cases hcc : c0 = c
      · subst hcc
        have hsingle : idsFor c0 [(c0, counterVal k c0)] =
            [counterVal k c0] := by
          simp [idsFor]
        rw [hsingle, List.singleton_append]
        refine List.pairwise_cons.mpr ⟨?_, ih (step k op) hstep⟩
        intro x hx
        have hmem : (c0, x) ∈ runLog (step k op) ops :=
          mem_of_mem_idsFor c0 x _ hx
        have hlb := runLog_lb (step k op) ops (c0, x) hmem
        have hb := hbump hi
        simp only at hlb
        omega
      · have hempty : idsFor c [(c0, counterVal k c0)] = [] := by
          simp [idsFor, hcc]
        rw [hempty, List.nil_append]
        exact ih (step k op) hstep

/-- C7: along every operation sequence from an initial kernel (fresh tasks,
no channels), the kernel invariant `Inv` holds — in particular `intraDisj`
and `interDisj` state that at every instant no `MessageId` is a key of more
than one of a channel pair's four maps (each endpoint's outbound
`write_regions` and inbound `read_regions`), a message being in at most one
of sender-outbound, receiver-inbound, or absent — and the `MessageId`s
handed out by `create_message` from any one shared counter cell form a
single strictly increasing sequence, so each id is used exactly once.
Since the operation list is universally quantified, the conclusion holds at
every instant of every run. -/
theorem C7_message_id_uniqueness (tids : List Nat) (cur : Nat)
    (ops : List Op) :
    Inv (run (initKernel tids cur) ops) ∧
    ∀ c, List.Pairwise (· < ·)
      (idsFor c (runLog (initKernel tids cur) ops)) :=
  ⟨inv_run (initKernel tids cur) ops (inv_initKernel tids cur),
   fun c => runLog_sorted (initKernel tids cur) ops (inv_initKernel tids cur) c⟩

end Vanadinite
